import Mathlib

/-!
# MicroPostingPlatform — verification of the backend core

Shallow embedding of the backend of the MicroPostingPlatform repository:
the credential verifier with account lockout (`src/backend/src/models/User.model.js`),
the in-memory database service (`src/backend/src/services/database.service.js`),
the TTL cache with pattern invalidation (`cache.service.js`),
the input validators (`src/backend/src/utils/validators.js`),
the error taxonomy (`utils/errors.js`) and the post model (`Post.model.js`).

Modelling conventions:
* JavaScript strings are Lean `String`s; `.length`, `.trim()`, `.toLowerCase()`,
  `.toUpperCase()` are modelled on `List Char` (the inputs of interest are ASCII,
  where the JS UTF-16 semantics and the per-character semantics agree).
* Timestamps (`Date.now()`, `new Date()`) are natural numbers (milliseconds).
  Each operation receives the current time `now` as an explicit argument.
* `bcrypt.compare` is an external primitive; it is modelled as an explicit
  function parameter `verify : String → String → Bool` (deterministic, no state).
* Mutable module state (`users`, `posts` arrays, the cache `Map`) is passed
  explicitly; every operation returns its result together with the new state.
* Fallible code (`throw`) returns `Except AppErr _`.
-/

deriving instance DecidableEq for Except

namespace MicroPost

/-! ## JS string primitives (modelled per character) -/

/-- JS whitespace class `\s` (and the class trimmed by `String.prototype.trim`),
restricted to the characters relevant here. -/
def isWs (c : Char) : Bool := c.isWhitespace

/-- `String.prototype.trim()` on a character list. -/
def trimChars (cs : List Char) : List Char :=
  ((cs.dropWhile isWs).reverse.dropWhile isWs).reverse

/-- `String.prototype.trim()`. -/
def jsTrim (s : String) : String := String.mk (trimChars s.toList)

/-- `String.prototype.toLowerCase()` (ASCII-faithful). -/
def jsToLower (s : String) : String := String.mk (s.toList.map Char.toLower)

/-- `String.prototype.toUpperCase()` (ASCII-faithful). -/
def jsToUpper (s : String) : String := String.mk (s.toList.map Char.toUpper)

/-- Split a character list on a separator character (used to model the
anchored regexes below; behaves like JS `String.prototype.split(c)`). -/
def splitOnChar (c : Char) : List Char → List (List Char)
  | [] => [[]]
  | d :: rest =>
    match splitOnChar c rest with
    | [] => [[]]
    | g :: gs => if d == c then [] :: g :: gs else (d :: g) :: gs

/-! ## Error taxonomy — `src/backend/src/utils/errors.js` (`src/unnamed/part_002`)

Each `AppError` subclass carries a message, a stable machine code and an HTTP
status.  The constructor default messages are reproduced at the throw sites. -/

inductive AppErr where
  | validation (message : String)
  | invalidCredentials (message : String)
  | unauthorized (message : String)
  | forbidden (message : String)
  | notFound (resource : String)
  | conflict (message : String)
  | accountLocked (message : String)
  | rateLimit (message : String)
deriving DecidableEq, Repr

/-- The stable machine-readable `code` of each error class. -/
def AppErr.code : AppErr → String
  | .validation _ => "VALIDATION_ERROR"
  | .invalidCredentials _ => "INVALID_CREDENTIALS"
  | .unauthorized _ => "UNAUTHORIZED"
  | .forbidden _ => "FORBIDDEN"
  | .notFound _ => "NOT_FOUND"
  | .conflict _ => "CONFLICT"
  | .accountLocked _ => "ACCOUNT_LOCKED"
  | .rateLimit _ => "RATE_LIMIT_EXCEEDED"

/-- The HTTP `statusCode` of each error class. -/
def AppErr.statusCode : AppErr → Nat
  | .validation _ => 400
  | .invalidCredentials _ => 401
  | .unauthorized _ => 401
  | .forbidden _ => 403
  | .notFound _ => 404
  | .conflict _ => 409
  | .accountLocked _ => 423
  | .rateLimit _ => 429

/-- The human-readable `message` (`NotFoundError` renders "<resource> not found"). -/
def AppErr.message : AppErr → String
  | .validation m => m
  | .invalidCredentials m => m
  | .unauthorized m => m
  | .forbidden m => m
  | .notFound r => r ++ " not found"
  | .conflict m => m
  | .accountLocked m => m
  | .rateLimit m => m

/-! ## Validators — `src/backend/src/utils/validators.js` -/

/-- `[^\s@]` — a character allowed inside either side of the email regex. -/
def isEmailChar (c : Char) : Bool := !isWs c && c != '@'

/-- Whether a character list contains a `'.'` that is neither its first nor its
last character (there is a split `B ++ '.' :: C` with `B`, `C` nonempty). -/
def dotWithSucc : List Char → Bool
  | [] => false
  | c :: rest => (c == '.' && !rest.isEmpty) || dotWithSucc rest

def hasInnerDot : List Char → Bool
  | [] => false
  | _ :: rest => dotWithSucc rest

/-- `EMAIL_REGEX = /^[^\s@]+@[^\s@]+\.[^\s@]+$/` from `validators.js`.
The anchored regex holds iff the string splits as `local@domain` with exactly
one `'@'`, both sides nonempty sequences of `[^\s@]`, and the domain containing
a `'.'` with nonempty segments on both sides. -/
def isValidEmail (s : String) : Bool :=
  match splitOnChar '@' s.toList with
  | [localPart, domain] =>
    !localPart.isEmpty && localPart.all isEmailChar &&
    !domain.isEmpty && domain.all isEmailChar && hasInnerDot domain
  | _ => false

/-- `isNonEmptyString`: a string whose trim has positive length. -/
def isNonEmptyString (s : String) : Bool := (trimChars s.toList).length > 0

/-- `[0-9a-fA-F]` (the UUID regex carries the `/i` flag). -/
def isHexChar (c : Char) : Bool :=
  ('0' ≤ c && c ≤ '9') || ('a' ≤ c && c ≤ 'f') || ('A' ≤ c && c ≤ 'F')

/-- `UUID_REGEX = /^[0-9a-f]{8}-[0-9a-f]{4}-4[0-9a-f]{3}-[89ab][0-9a-f]{3}-[0-9a-f]{12}$/i`.
Since hex characters exclude `'-'`, the anchored regex holds iff splitting on
`'-'` yields exactly five all-hex groups of lengths 8/4/4/4/12, the third
starting with `'4'` and the fourth with `[89ab]` (case-insensitive). -/
def isValidId (s : String) : Bool :=
  match splitOnChar '-' s.toList with
  | [g1, g2, g3, g4, g5] =>
    g1.length == 8 && g2.length == 4 && g3.length == 4 && g4.length == 4 &&
    g5.length == 12 &&
    g1.all isHexChar && g2.all isHexChar && g3.all isHexChar &&
    g4.all isHexChar && g5.all isHexChar &&
    (match g3 with | c :: _ => c == '4' | [] => false) &&
    (match g4 with | c :: _ => c == '8' || c == '9' || c == 'a' || c == 'b' ||
                              c == 'A' || c == 'B'
                   | [] => false)
  | _ => false

/-- `.replace(/\s+/g, ' ')`, scanning left to right: a whitespace character
opening a run becomes `' '`, further whitespace of the same run is dropped
(`prevWs` records whether the previous character was whitespace). -/
def collapseWsAux (prevWs : Bool) : List Char → List Char
  | [] => []
  | c :: rest =>
    if isWs c then
      if prevWs then collapseWsAux true rest
      else ' ' :: collapseWsAux true rest
    else c :: collapseWsAux false rest

/-- `.replace(/\s+/g, ' ')`: collapse every maximal whitespace run to one space. -/
def collapseWs (cs : List Char) : List Char := collapseWsAux false cs

/-- `sanitizeText`: remove `<` and `>`, collapse whitespace, trim. -/
def sanitizeText (s : String) : String :=
  String.mk (trimChars (collapseWs (s.toList.filter fun c => c != '<' && c != '>')))

/-- `clamp(value, min, max) = Math.min(Math.max(value, min), max)`. -/
def clamp (value lo hi : Int) : Int := min (max value lo) hi

/-- `validateLogin(email, password)`: throws `ValidationError` when the email is
malformed or the password is not a non-empty string. -/
def validateLogin (email password : String) : Except AppErr Unit :=
  if !isValidEmail email || !isNonEmptyString password then
    .error (.validation "Invalid email or password")
  else
    .ok ()

/-- `validatePostContent(content)`. -/
def validatePostContent (content : String) : Except AppErr Unit :=
  if !isNonEmptyString content then
    .error (.validation "Post content cannot be empty")
  else if content.length > 280 then
    .error (.validation "Post content must be less than 280 characters")
  else
    .ok ()

/-- `validateRegistration(email, password, displayName)`: collects all
violations and throws them joined with `", "`. -/
def validateRegistration (email password displayName : String) :
    Except AppErr Unit :=
  let errors :=
    (if !isValidEmail email then ["Invalid email format"] else []) ++
    (if !isNonEmptyString password || password.length < 8 then
      ["Password must be at least 8 characters"] else []) ++
    (if !isNonEmptyString displayName || displayName.length < 2 then
      ["Display name must be at least 2 characters"] else [])
  if errors.length > 0 then
    .error (.validation (String.intercalate ", " errors))
  else
    .ok ()

/-- `validatePagination(limit, offset, order)`.  `undefined` arguments are
`none`; JS numbers from `parseInt` are modelled as integers (`Number.isInteger`
always holds for them, and `NaN` never reaches the validator in the modelled
call paths).  Returns the normalized `{limit, offset, order}`. -/
def validatePagination (limit offset : Option Int) (order : Option String) :
    Except AppErr (Int × Int × String) :=
  let errors :=
    (match limit with
     | some l => if l < 1 || l > 100 then
        ["Limit must be an integer between 1 and 100"] else []
     | none => []) ++
    (match offset with
     | some o => if o < 0 then ["Offset must be a non-negative integer"] else []
     | none => []) ++
    (match order with
     | some s => if !(jsToUpper s == "ASC" || jsToUpper s == "DESC") then
        ["Order must be ASC or DESC"] else []
     | none => [])
  if errors.length > 0 then
    .error (.validation (String.intercalate ", " errors))
  else
    .ok
      ( (match limit with
         | some l => if l == 0 then 20 else clamp l 1 100
         | none => 20),
        (match offset with
         | some o => if o == 0 then 0 else o
         | none => 0),
        (match order with
         | some s => jsToUpper s
         | none => "DESC") )

/-! ## Data model and database service —
`src/backend/src/services/database.service.js`

The module-level mutable arrays `users` and `posts` become the fields of
`DBState`; every `DB.*` operation takes the state (and, where the JS reads the
clock or generates an id, explicit `now`/`newId` arguments) and returns the new
state alongside its result. -/

structure UserRecord where
  id : String
  email : String
  displayName : String
  avatarUrl : String
  passwordHash : String
  status : String
  failedLoginCount : Nat
  lockedUntil : Option Nat
  createdAt : Nat
  deletedAt : Option Nat
deriving DecidableEq, Repr

structure Post where
  id : String
  userId : String
  content : String
  createdAt : Nat
  deletedAt : Option Nat
deriving DecidableEq, Repr

structure DBState where
  users : List UserRecord
  posts : List Post
deriving DecidableEq, Repr

/-- `DB.findUserByEmail(email)`: first user matching the email that is not
soft-deleted.  (The `options.select` projection only narrows the returned
fields; the full record is returned here, which is select-equivalent for the
fields the callers read.) -/
def findUserByEmail (db : DBState) (email : String) : Option UserRecord :=
  db.users.find? fun u => u.email == email && u.deletedAt == none

/-- `DB.findUserById(id, options)`: first user with the id; when the caller
passes `where: { deletedAt: null }` (`onlyNotDeleted`), soft-deleted records
are skipped. -/
def findUserById (db : DBState) (id : String) (onlyNotDeleted : Bool) :
    Option UserRecord :=
  db.users.find? fun u => u.id == id && (!onlyNotDeleted || u.deletedAt == none)

/-- `DB.findAllUsers()`. -/
def findAllUsers (db : DBState) : List UserRecord :=
  db.users.filter fun u => u.deletedAt == none

/-- A partial patch for `DB.updateUser` (`{ ...users[index], ...data }`):
only the fields the backend ever patches are representable. -/
structure UserPatch where
  failedLoginCount : Option Nat := none
  lockedUntil : Option (Option Nat) := none

def applyUserPatch (u : UserRecord) (p : UserPatch) : UserRecord :=
  { u with
    failedLoginCount := p.failedLoginCount.getD u.failedLoginCount
    lockedUntil := p.lockedUntil.getD u.lockedUntil }

/-- Replace the first element satisfying the id match (JS `findIndex` +
in-place assignment). -/
def updateFirstUser (id : String) (f : UserRecord → UserRecord) :
    List UserRecord → List UserRecord
  | [] => []
  | u :: rest => if u.id == id then f u :: rest else u :: updateFirstUser id f rest

/-- `DB.updateUser(id, data)` (the returned copy is unused by the callers
modelled here, so only the state effect is kept). -/
def updateUser (db : DBState) (id : String) (p : UserPatch) : DBState :=
  { db with users := updateFirstUser id (fun u => applyUserPatch u p) db.users }

/-- `DB.createUser(data)`: appends a fresh `ACTIVE`-shaped record (the caller
provides `email`, `displayName`, `passwordHash`, `status`, `avatarUrl`; the
database adds `id`, zero `failedLoginCount`, null `lockedUntil`, `createdAt`,
null `deletedAt`). -/
def createUser (db : DBState) (newId : String) (now : Nat)
    (email displayName passwordHash status avatarUrl : String) :
    UserRecord × DBState :=
  let newUser : UserRecord :=
    { id := newId, email := email, displayName := displayName
      avatarUrl := avatarUrl, passwordHash := passwordHash, status := status
      failedLoginCount := 0, lockedUntil := none, createdAt := now
      deletedAt := none }
  (newUser, { db with users := db.users ++ [newUser] })

/-- The sort comparator of `DB.findPosts`:
`(a, b) => order === 'ASC' ? a.createdAt - b.createdAt : -(…)`, rendered as a
boolean `le`. -/
def postLe (order : String) (a b : Post) : Bool :=
  if order == "ASC" then a.createdAt ≤ b.createdAt else b.createdAt ≤ a.createdAt

/-- Stable insertion into a sorted list (model of `Array.prototype.sort`,
which sorts stably by the comparator; every property proved below depends only
on the sorted list being a permutation of the input). -/
def insertSorted {α : Type} (le : α → α → Bool) (x : α) : List α → List α
  | [] => [x]
  | y :: ys => if le x y then x :: y :: ys else y :: insertSorted le x ys

/-- Stable sort by a boolean comparator. -/
def sortByLe {α : Type} (le : α → α → Bool) : List α → List α
  | [] => []
  | x :: xs => insertSorted le x (sortByLe le xs)

/-- `DB.findPosts(options)`: filter by `userId` and `deletedAt: null` when
present, sort by `createdAt` when `orderBy` is given, then
`slice(offset, offset + limit)` with defaults `offset = 0`, `limit = 20`. -/
def findPosts (db : DBState) (userFilter : Option String) (notDeleted : Bool)
    (orderBy : Option String) (limit offset : Option Nat) : List Post :=
  let r := db.posts
  let r := match userFilter with
    | some uid => r.filter fun (p : Post) => p.userId == uid
    | none => r
  let r := if notDeleted then r.filter (fun (p : Post) => p.deletedAt == none) else r
  let r := match orderBy with
    | some order => sortByLe (postLe order) r
    | none => r
  (r.drop (offset.getD 0)).take (limit.getD 20)

/-- `DB.findPostById(id)` (no soft-delete filter at this layer). -/
def findPostById (db : DBState) (id : String) : Option Post :=
  db.posts.find? fun p => p.id == id

/-- `DB.createPost(data)`: appends `{ ...data, id, createdAt, deletedAt: null }`. -/
def createPost (db : DBState) (newId : String) (now : Nat)
    (userId content : String) : Post × DBState :=
  let newPost : Post :=
    { id := newId, userId := userId, content := content, createdAt := now
      deletedAt := none }
  (newPost, { db with posts := db.posts ++ [newPost] })

/-- Replace the first post with the id (JS `findIndex` + assignment). -/
def updateFirstPost (id : String) (f : Post → Post) : List Post → List Post
  | [] => []
  | p :: rest => if p.id == id then f p :: rest else p :: updateFirstPost id f rest

/-- `DB.softDeletePost(id)`: sets `deletedAt` on the first matching post
(no-op when absent). -/
def softDeletePost (db : DBState) (id : String) (now : Nat) : DBState :=
  { db with posts := updateFirstPost id (fun p => { p with deletedAt := some now }) db.posts }

/-- `JSON.parse(JSON.stringify(u))` on a user record: every field is a string,
a number or null and survives the round trip unchanged (timestamps are
modelled as numbers). -/
def jsonRoundTripUser (u : UserRecord) : UserRecord :=
  { id := u.id, email := u.email, displayName := u.displayName
    avatarUrl := u.avatarUrl, passwordHash := u.passwordHash, status := u.status
    failedLoginCount := u.failedLoginCount, lockedUntil := u.lockedUntil
    createdAt := u.createdAt, deletedAt := u.deletedAt }

/-- `JSON.parse(JSON.stringify(p))` on a post record. -/
def jsonRoundTripPost (p : Post) : Post :=
  { id := p.id, userId := p.userId, content := p.content
    createdAt := p.createdAt, deletedAt := p.deletedAt }

/-- `DB.transaction(callback)`: snapshot both stores (deep copy via JSON),
run the callback against the live state, and on a thrown error restore the
snapshot and propagate the error.  The pair returned is
(propagated result, final store state). -/
def DBtransaction {α : Type} (db : DBState)
    (callback : DBState → Except AppErr (α × DBState)) :
    Except AppErr α × DBState :=
  let postSnapshot := db.posts.map jsonRoundTripPost
  let userSnapshot := db.users.map jsonRoundTripUser
  match callback db with
  | .ok (a, db') => (.ok a, db')
  | .error e => (.error e, { users := userSnapshot, posts := postSnapshot })

/-! ## Cache service — `cache.service.js` (`src/unnamed/part_008`)

The `Map` becomes an association list with unique keys (maintained by `set`).
`deletePattern` compiles its glob via `new RegExp(pattern.replace('*', '.*'))`
— note `String.prototype.replace` with a string argument replaces only the
FIRST `'*'` — and removes every key the unanchored regex matches anywhere. -/

structure CacheEntry (α : Type) where
  value : α
  expiresAt : Nat
deriving DecidableEq, Repr

def Cache (α : Type) : Type := List (String × CacheEntry α)

instance {α : Type} [DecidableEq α] : DecidableEq (Cache α) :=
  inferInstanceAs (DecidableEq (List (String × CacheEntry α)))

/-- `Map.prototype.get`. -/
def cacheLookup {α : Type} (c : Cache α) (key : String) : Option (CacheEntry α) :=
  (c.find? fun kv => kv.1 == key).map (·.2)

/-- `Map.prototype.delete` / `CacheService.delete`. -/
def cacheDelete {α : Type} (c : Cache α) (key : String) : Cache α :=
  c.filter fun kv => !(kv.1 == key)

/-- `CacheService.get(key)`: absent ⇒ miss; present but `Date.now() > expiresAt`
⇒ delete the entry and miss; otherwise hit.  Returns the value (if any) and
the possibly-updated store. -/
def cacheGet {α : Type} (c : Cache α) (key : String) (now : Nat) :
    Option α × Cache α :=
  match cacheLookup c key with
  | none => (none, c)
  | some item =>
    if now > item.expiresAt then (none, cacheDelete c key)
    else (some item.value, c)

/-- `CacheService.set(key, value)` with the service TTL (no `customTTL` caller
exists in the backend): stores `{value, expiresAt: Date.now() + ttlMs}`. -/
def cacheSet {α : Type} (c : Cache α) (key : String) (value : α)
    (now ttlMs : Nat) : Cache α :=
  (key, ⟨value, now + ttlMs⟩) :: cacheDelete c key

/-! ### The `deletePattern` regex

After `pattern.replace('*', '.*')` the patterns used by the backend consist of
literal characters, `'.'` (any character) and a `'*'` (Kleene star on the
preceding atom).  `parseToks` reads such a pattern into items; `matchHere`
is the standard backtracking matcher; `regexSearch` is the unanchored
`RegExp.prototype.test`. -/

inductive RTok where
  | lit (c : Char)
  | anyc
deriving DecidableEq, Repr

structure RItem where
  tok : RTok
  star : Bool
deriving DecidableEq, Repr

def tokOf (c : Char) : RTok := if c == '.' then .anyc else .lit c

def parseToks : List Char → List RItem
  | [] => []
  | [c] => [⟨tokOf c, false⟩]
  | c :: d :: rest =>
    if d == '*' then ⟨tokOf c, true⟩ :: parseToks rest
    else ⟨tokOf c, false⟩ :: parseToks (d :: rest)

def tokMatch : RTok → Char → Bool
  | .anyc, _ => true
  | .lit c, d => c == d

/-- Backtracking for a starred atom `t*`: either the continuation matches
right away, or `t` consumes one character and the star continues. -/
def matchStar (t : RTok) (matchRest : List Char → Bool) : List Char → Bool
  | [] => matchRest []
  | c :: cs => matchRest (c :: cs) || (tokMatch t c && matchStar t matchRest cs)

def matchHere : List RItem → List Char → Bool
  | [], _ => true
  | ⟨t, false⟩ :: ts, cs =>
    match cs with
    | [] => false
    | c :: cs' => tokMatch t c && matchHere ts cs'
  | ⟨t, true⟩ :: ts, cs => matchStar t (matchHere ts) cs

def regexSearch (toks : List RItem) : List Char → Bool
  | [] => matchHere toks []
  | c :: cs => matchHere toks (c :: cs) || regexSearch toks cs

/-- `pattern.replace('*', '.*')`: only the first `'*'` is replaced. -/
def replaceFirstStar : List Char → List Char
  | [] => []
  | c :: rest =>
    if c == '*' then '.' :: '*' :: rest
    else c :: replaceFirstStar rest

/-- `new RegExp(pattern.replace('*', '.*')).test(key)`. -/
def regexTest (pattern key : String) : Bool :=
  regexSearch (parseToks (replaceFirstStar pattern.toList)) key.toList

/-- `CacheService.deletePattern(pattern)`. -/
def cacheDeletePattern {α : Type} (c : Cache α) (pattern : String) : Cache α :=
  c.filter fun kv => !regexTest pattern kv.1

/-! ### Cache key generators (`cacheKeys`) -/

def keyUser (userId : String) : String := "user:" ++ userId
def keyAllUsers : String := "users:all"
def keyUserPosts (userId : String) (page : Nat) : String :=
  "posts:user:" ++ userId ++ ":page:" ++ toString page
def keyPost (postId : String) : String := "post:" ++ postId
def keyFeed (page : Nat) : String := "posts:feed:page:" ++ toString page

/-! ## Configuration — `config/env.js` (second document of
`src/unnamed/part_006`) -/

/-- The environment configuration object of `config/env.js`, restricted to
the keys the modelled operations read.  Each key is
`parseInt(process.env.X, 10) || default`, so the value depends on the process
environment; the structure abstracts over that environment and every model
operation is parameterized over it.  `cacheTTL` is in seconds, as in the
source (`cache.service.js` multiplies it by 1000). -/
structure Config where
  maxFailedLoginAttempts : Nat
  accountLockoutDurationMs : Nat
  cacheTTL : Nat

/-- The configuration when no environment overrides are set — the `||`
fallbacks of `config/env.js`: `maxFailedLoginAttempts = 5`,
`accountLockoutDurationMs = 15 * 60 * 1000`, `cacheTTL = 300` seconds. -/
def defaultConfig : Config :=
  { maxFailedLoginAttempts := 5
    accountLockoutDurationMs := 15 * 60 * 1000
    cacheTTL := 300 }

/-! ## Views, tokens, cache values, application state -/

/-- `UserModel.toSafeUser` — the authenticated view (no password hash). -/
structure SafeUser where
  id : String
  email : String
  displayName : String
  avatarUrl : String
deriving DecidableEq, Repr

/-- `UserModel.toPublicProfile` — the public view (no email). -/
structure PublicProfile where
  id : String
  displayName : String
  avatarUrl : String
  createdAt : Nat
deriving DecidableEq, Repr

/-- The payload of `generateToken(userId, email)` (the JWT machinery itself is
an external library; the token is opaque to every claim). -/
structure Token where
  userId : String
  email : String
deriving DecidableEq, Repr

/-- `{ ...post, author }` as produced by the feed / single-post reads. -/
structure PostWithAuthor where
  post : Post
  author : PublicProfile
deriving DecidableEq, Repr

/-- The value space of the shared cache `Map`.  Each key family only ever
stores its own variant (`user:*` ↦ `vProfile`, `users:all` ↦ `vProfiles`,
`posts:user:*` ↦ `vPosts`, `posts:feed:*` ↦ `vFeed`, `post:*` ↦ `vPostWA`);
a read finding a foreign variant cannot arise along the modelled operations
and is treated as a miss. -/
inductive CacheValue where
  | vProfile (p : PublicProfile)
  | vProfiles (ps : List PublicProfile)
  | vPosts (ps : List Post)
  | vFeed (ps : List PostWithAuthor)
  | vPostWA (p : PostWithAuthor)
deriving DecidableEq, Repr

/-- The backend's mutable state: the database arrays plus the cache `Map`. -/
structure AppState where
  db : DBState
  cache : Cache CacheValue
deriving DecidableEq

def toSafeUser (u : UserRecord) : SafeUser :=
  { id := u.id, email := u.email, displayName := u.displayName
    avatarUrl := u.avatarUrl }

def toPublicProfile (u : UserRecord) : PublicProfile :=
  { id := u.id, displayName := u.displayName, avatarUrl := u.avatarUrl
    createdAt := u.createdAt }

/-! ## User model — `src/backend/src/models/User.model.js` -/

/-- `DUMMY_PASSWORD_HASH` from `crypto.service.js`. -/
def DUMMY_PASSWORD_HASH : String :=
  "$2b$12$dummyhashfortimingatttackpreventionxxxxxxxxxxxxxxxxxxxxxx"

/-- `email.toLowerCase().trim()`. -/
def normalizeEmail (email : String) : String := jsTrim (jsToLower email)

/-- `new Date(user.lockedUntil) > new Date()`: locked iff `lockedUntil` is set
and strictly in the future. -/
def lockedNow (lockedUntil : Option Nat) (now : Nat) : Bool :=
  match lockedUntil with
  | none => false
  | some t => now < t

/-- `UserModel.recordFailedLogin(userId)`: refetch the record (no soft-delete
filter), increment `failedLoginCount`, and set
`lockedUntil = Date.now() + accountLockoutDurationMs` once the new count
reaches `maxFailedLoginAttempts`. -/
def recordFailedLogin (cfg : Config) (db : DBState) (now : Nat)
    (userId : String) : DBState :=
  match findUserById db userId false with
  | none => db
  | some u =>
    let newCount := u.failedLoginCount + 1
    let patch : UserPatch :=
      if newCount ≥ cfg.maxFailedLoginAttempts then
        { failedLoginCount := some newCount
          lockedUntil := some (some (now + cfg.accountLockoutDurationMs)) }
      else
        { failedLoginCount := some newCount }
    updateUser db userId patch

/-- `UserModel.resetFailedLogin(userId)`. -/
def resetFailedLogin (db : DBState) (userId : String) : DBState :=
  updateUser db userId
    { failedLoginCount := some 0, lockedUntil := some none }

/-- `UserModel.authenticate(email, password)`.  `verify` is the bcrypt
comparison.  Order of operations follows the source: input validation,
lookup, dummy-hash verification (result-irrelevant when no record exists),
lock check, credential check with failed-attempt bookkeeping, reset on
success. -/
def authenticate (cfg : Config) (verify : String → String → Bool)
    (db : DBState) (now : Nat) (email password : String) :
    Except AppErr (SafeUser × Token) × DBState :=
  match validateLogin email password with
  | .error e => (.error e, db)
  | .ok () =>
    let ne := normalizeEmail email
    match findUserByEmail db ne with
    | none =>
      -- dummy-hash comparison runs for timing parity; its result is unused
      let _ := verify password DUMMY_PASSWORD_HASH
      (.error (.invalidCredentials "Invalid email or password"), db)
    | some user =>
      let isValidPassword := verify password user.passwordHash
      if lockedNow user.lockedUntil now then
        (.error
          (.accountLocked
            "Account temporarily locked due to multiple failed login attempts"),
          db)
      else if user.status != "ACTIVE" || !isValidPassword then
        (.error (.invalidCredentials "Invalid email or password"),
          recordFailedLogin cfg db now user.id)
      else
        (.ok (toSafeUser user, ⟨user.id, user.email⟩),
          resetFailedLogin db user.id)

/-- `UserModel.register(email, password, displayName)` (`hash` is
`bcrypt.hash`; the `encodeURIComponent` in the avatar URL is not modelled —
no claim reads the URL). -/
def register (hash : String → String) (s : AppState) (now : Nat)
    (newId : String) (email password displayName : String) :
    Except AppErr (SafeUser × Token) × AppState :=
  match validateRegistration email password displayName with
  | .error e => (.error e, s)
  | .ok () =>
    let ne := normalizeEmail email
    match findUserByEmail s.db ne with
    | some _ => (.error (.conflict "Email already registered"), s)
    | none =>
      let passwordHash := hash password
      let (user, db') := createUser s.db newId now ne (jsTrim displayName)
        passwordHash "ACTIVE"
        ("https://api.dicebear.com/7.x/avataaars/svg?seed=" ++ displayName)
      let c' := cacheDelete s.cache keyAllUsers
      (.ok (toSafeUser user, ⟨user.id, user.email⟩), ⟨db', c'⟩)

/-- `UserModel.getById(id)`: validate, try the `user:<id>` cache key, fall
through to `DB.findUserById(id, {where: {deletedAt: null}})`, project to the
public profile and cache it.  The database is read-only here, so only the
cache is threaded. -/
def userGetById (cfg : Config) (db : DBState) (cache : Cache CacheValue)
    (now : Nat) (id : String) :
    Except AppErr PublicProfile × Cache CacheValue :=
  if !isValidId id then (.error (.validation "Invalid user ID"), cache)
  else
    let key := keyUser id
    let got := cacheGet cache key now
    match got.1 with
    | some (.vProfile p) => (.ok p, got.2)
    | _ =>
      match findUserById db id true with
      | none => (.error (.notFound "User"), got.2)
      | some user =>
        let profile := toPublicProfile user
        (.ok profile, cacheSet got.2 key (.vProfile profile) now (cfg.cacheTTL * 1000))

/-! ## Post model — `Post.model.js` (`src/unnamed/part_007`) -/

/-- The author-enrichment loop of `PostModel.getAllWithAuthors`
(`Promise.all(posts.map(...))`, linearized): each post is joined with
`UserModel.getById(post.userId)`; a post whose author lookup throws is
dropped.  The cache is threaded through the lookups. -/
def enrichPosts (cfg : Config) (db : DBState) (cache : Cache CacheValue)
    (now : Nat) : List Post → List PostWithAuthor × Cache CacheValue
  | [] => ([], cache)
  | p :: rest =>
    let r := userGetById cfg db cache now p.userId
    let others := enrichPosts cfg db r.2 now rest
    match r.1 with
    | .ok author => (⟨p, author⟩ :: others.1, others.2)
    | .error _ => others

/-- `PostModel.getByUserId(userId, options)`: validate the id and the
pagination, try `posts:user:<id>:page:<floor(offset/limit)>`, fall through to
`DB.findPosts` (non-deleted, ordered, paginated) and cache the page. -/
def postGetByUserId (cfg : Config) (s : AppState) (now : Nat) (userId : String)
    (limit offset : Option Int) (order : Option String) :
    Except AppErr (List Post) × AppState :=
  if !isValidId userId then (.error (.validation "Invalid userId"), s)
  else
    match validatePagination limit offset order with
    | .error e => (.error e, s)
    | .ok (lim, off, ord) =>
      let page := (off / lim).toNat
      let key := keyUserPosts userId page
      let got := cacheGet s.cache key now
      match got.1 with
      | some (.vPosts ps) => (.ok ps, ⟨s.db, got.2⟩)
      | _ =>
        let posts := findPosts s.db (some userId) true (some ord)
          (some lim.toNat) (some off.toNat)
        (.ok posts,
          ⟨s.db, cacheSet got.2 key (.vPosts posts) now (cfg.cacheTTL * 1000)⟩)

/-- `PostModel.getAllWithAuthors(options)` (the feed): validate pagination,
try `posts:feed:page:<n>`, fall through to `DB.findPosts`, enrich with author
profiles, cache the enriched page. -/
def getAllWithAuthors (cfg : Config) (s : AppState) (now : Nat)
    (limit offset : Option Int) (order : Option String) :
    Except AppErr (List PostWithAuthor) × AppState :=
  match validatePagination limit offset order with
  | .error e => (.error e, s)
  | .ok (lim, off, ord) =>
    let page := (off / lim).toNat
    let key := keyFeed page
    let got := cacheGet s.cache key now
    match got.1 with
    | some (.vFeed ps) => (.ok ps, ⟨s.db, got.2⟩)
    | _ =>
      let posts := findPosts s.db none true (some ord)
        (some lim.toNat) (some off.toNat)
      let er := enrichPosts cfg s.db got.2 now posts
      (.ok er.1,
        ⟨s.db, cacheSet er.2 key (.vFeed er.1) now (cfg.cacheTTL * 1000)⟩)

/-- `PostModel.getById(postId)`: validate, try `post:<id>`, fall through to
`DB.findPostById`; a missing or soft-deleted post is `NotFound`; the author
lookup is NOT guarded (its error propagates), matching the source. -/
def postGetById (cfg : Config) (s : AppState) (now : Nat) (postId : String) :
    Except AppErr PostWithAuthor × AppState :=
  if !isValidId postId then (.error (.validation "Invalid post ID"), s)
  else
    let key := keyPost postId
    let got := cacheGet s.cache key now
    match got.1 with
    | some (.vPostWA x) => (.ok x, ⟨s.db, got.2⟩)
    | _ =>
      match findPostById s.db postId with
      | none => (.error (.notFound "Post"), ⟨s.db, got.2⟩)
      | some post =>
        if post.deletedAt != none then
          (.error (.notFound "Post"), ⟨s.db, got.2⟩)
        else
          let ar := userGetById cfg s.db got.2 now post.userId
          match ar.1 with
          | .error e => (.error e, ⟨s.db, ar.2⟩)
          | .ok author =>
            let x : PostWithAuthor := ⟨post, author⟩
            (.ok x,
              ⟨s.db, cacheSet ar.2 key (.vPostWA x) now (cfg.cacheTTL * 1000)⟩)

/-- `PostModel.create(userId, content)`: validate the id and the raw content,
sanitize, then inside `DB.transaction` check the author exists (active,
non-deleted) and insert; on success delete every `posts:user:<userId>:*` and
`posts:feed:*` cache key. -/
def postCreate (s : AppState) (now : Nat) (newId : String)
    (userId content : String) : Except AppErr Post × AppState :=
  if !isValidId userId then (.error (.validation "Invalid userId"), s)
  else
    match validatePostContent content with
    | .error e => (.error e, s)
    | .ok () =>
      let sanitizedContent := sanitizeText content
      let (txRes, db') := DBtransaction s.db fun db =>
        if !(db.users.any fun u =>
            u.id == userId && u.deletedAt == none && u.status == "ACTIVE") then
          .error (.notFound "User")
        else
          let (newPost, db2) := createPost db newId now userId sanitizedContent
          .ok (newPost, db2)
      match txRes with
      | .error e => (.error e, ⟨db', s.cache⟩)
      | .ok post =>
        let c1 := cacheDeletePattern s.cache ("posts:user:" ++ userId ++ ":*")
        let c2 := cacheDeletePattern c1 "posts:feed:*"
        (.ok post, ⟨db', c2⟩)

/-- `PostModel.deleteOwned(postId, userId)`: validate both ids, then inside
`DB.transaction` fetch the post (missing or already soft-deleted ⇒ `NotFound`,
foreign owner ⇒ `Forbidden`, otherwise soft delete); on success delete
`post:<postId>`, every `posts:user:<userId>:*` and every `posts:feed:*` key. -/
def deleteOwned (s : AppState) (now : Nat) (postId userId : String) :
    Except AppErr Bool × AppState :=
  if !(isValidId postId && isValidId userId) then
    (.error (.validation "Invalid post or user ID"), s)
  else
    let (txRes, db') := DBtransaction s.db fun db =>
      match findPostById db postId with
      | none => .error (.notFound "Post")
      | some post =>
        if post.deletedAt != none then .error (.notFound "Post")
        else if post.userId != userId then
          .error (.forbidden "You can only delete your own posts")
        else
          .ok (true, softDeletePost db postId now)
    match txRes with
    | .error e => (.error e, ⟨db', s.cache⟩)
    | .ok result =>
      let c1 := cacheDelete s.cache (keyPost postId)
      let c2 := cacheDeletePattern c1 ("posts:user:" ++ userId ++ ":*")
      let c3 := cacheDeletePattern c2 "posts:feed:*"
      (.ok result, ⟨db', c3⟩)

/-! ## The cache-aside read path, abstracted

Every cached read (`UserModel.getById`, `UserModel.getAll`,
`PostModel.getByUserId`, `PostModel.getAllWithAuthors`, `PostModel.getById`)
is an instance of the same get-or-compute shape: `cache.get(key)`; on a hit
return the cached value; on a miss run the loader, `cache.set(key, result)`
and return the result.  `cacheGetOrCompute` is that shape with the loader as
an explicit fallible computation; the `Bool` records whether the loader ran. -/

def cacheGetOrCompute {α : Type} (c : Cache α) (key : String) (now ttlMs : Nat)
    (loader : Except AppErr α) : Except AppErr (α × Cache α × Bool) :=
  match cacheGet c key now with
  | (some v, c') => .ok (v, c', false)
  | (none, c') =>
    match loader with
    | .ok v => .ok (v, cacheSet c' key v now ttlMs, true)
    | .error e => .error e

/-! ## Concrete fixtures (used by witness theorems) -/

def uuidA : String := "123e4567-e89b-42d3-a456-426614174000"
def uuidB : String := "123e4567-e89b-42d3-a456-426614174001"
def uuidC : String := "123e4567-e89b-42d3-a456-426614174002"

/-- A test instantiation of the bcrypt comparison: a password verifies against
a stored hash exactly when the strings coincide (the dummy hash differs from
every test password). -/
def testVerify (password hash : String) : Bool := password == hash

def userA : UserRecord :=
  { id := uuidA, email := "a@x.com", displayName := "Ann", avatarUrl := "av"
    passwordHash := "password1", status := "ACTIVE", failedLoginCount := 0
    lockedUntil := none, createdAt := 0, deletedAt := none }

def dbA : DBState := ⟨[userA], []⟩

/-- A run of consecutive `authenticate` calls with the same credentials, at
the given sequence of times, keeping only the store (the scenario harness for
repeated failed logins). -/
def failN (cfg : Config) (verify : String → String → Bool) (db : DBState)
    (ts : List Nat) (email pw : String) : DBState :=
  ts.foldl (fun d t => (authenticate cfg verify d t email pw).2) db

/-- A locked variant of `userA` (five failures, locked until 1000 ms). -/
def userLocked : UserRecord :=
  { userA with failedLoginCount := 5, lockedUntil := some 1000 }

def dbLocked : DBState := ⟨[userLocked], []⟩

/-- The post persisted by the concrete creation in the C6 witness. -/
def postHi : Post :=
  { id := uuidB, userId := uuidA, content := "hi", createdAt := 50
    deletedAt := none }

/-- A test instantiation of `bcrypt.hash` matching `testVerify`. -/
def testHash (p : String) : String := p

def postC : Post := ⟨uuidC, uuidA, "x", 10, none⟩

def postHello : Post := ⟨uuidB, uuidA, "hello", 60, none⟩

/-- A warm cache over `dbA`: one feed page, one user-posts page, the all-users
list. -/
def s0 : AppState :=
  ⟨dbA, [(keyFeed 0, ⟨.vFeed [], 99999⟩),
         (keyUserPosts uuidA 0, ⟨.vPosts [], 99999⟩),
         (keyAllUsers, ⟨.vProfiles [], 99999⟩)]⟩

/-- A warm cache over a store holding `postC` (owned by `userA`). -/
def s1 : AppState :=
  ⟨⟨[userA], [postC]⟩,
   [(keyPost uuidC, ⟨.vPostWA ⟨postC, toPublicProfile userA⟩, 99999⟩),
    (keyFeed 0, ⟨.vFeed [], 99999⟩),
    (keyUserPosts uuidA 0, ⟨.vPosts [], 99999⟩)]⟩

def sAfterCreate : AppState :=
  ⟨⟨[userA], [postHello]⟩, [(keyAllUsers, ⟨.vProfiles [], 99999⟩)]⟩

def sAfterDelete : AppState :=
  ⟨⟨[userA], [{ postC with deletedAt := some 70 }]⟩, []⟩

def newUser80 : UserRecord :=
  { id := uuidB, email := "new@x.com", displayName := "Newbie"
    avatarUrl := "https://api.dicebear.com/7.x/avataaars/svg?seed=Newbie"
    passwordHash := "password123", status := "ACTIVE", failedLoginCount := 0
    lockedUntil := none, createdAt := 80, deletedAt := none }

def sAfterReg : AppState :=
  ⟨⟨[userA, newUser80], []⟩,
   [(keyFeed 0, ⟨.vFeed [], 99999⟩), (keyUserPosts uuidA 0, ⟨.vPosts [], 99999⟩)]⟩

def safeNew : SafeUser :=
  { id := uuidB, email := "new@x.com", displayName := "Newbie"
    avatarUrl := "https://api.dicebear.com/7.x/avataaars/svg?seed=Newbie" }

/-- Final state of the feed read following the witness deletion. -/
def sFeedAfter : AppState :=
  ⟨sAfterDelete.db, [(keyFeed 0, ⟨.vFeed [], 300071⟩)]⟩

/-- Final state of the user-posts read following the witness deletion. -/
def sUserAfter : AppState :=
  ⟨sAfterDelete.db, [(keyUserPosts uuidA 0, ⟨.vPosts [], 300071⟩)]⟩

/-! ## Helper lemmas: cache store -/

theorem cacheLookup_filter_none {α : Type} (c : Cache α) (key : String)
    (p : String → Bool) (hp : p key = true) :
    cacheLookup (List.filter (fun kv => !p kv.1) c) key = none := by
  unfold cacheLookup
  rw [Option.map_eq_none', List.find?_eq_none]
  intro kv hkv hbeq
  rw [List.mem_filter] at hkv
  rw [beq_iff_eq] at hbeq
  rw [hbeq, hp] at hkv
  simp at hkv

theorem cacheLookup_filter_of_none {α : Type} (c : Cache α) (key : String)
    (q : String × CacheEntry α → Bool) (h : cacheLookup c key = none) :
    cacheLookup (List.filter q c) key = none := by
  unfold cacheLookup at h ⊢
  rw [Option.map_eq_none', List.find?_eq_none] at h ⊢
  intro kv hkv
  exact h kv (List.mem_filter.1 hkv).1

theorem cacheLookup_deletePattern_of_test {α : Type} (c : Cache α)
    (pattern key : String) (h : regexTest pattern key = true) :
    cacheLookup (cacheDeletePattern c pattern) key = none :=
  cacheLookup_filter_none c key (regexTest pattern) h

theorem cacheLookup_cacheDelete_self {α : Type} (c : Cache α) (key : String) :
    cacheLookup (cacheDelete c key) key = none :=
  cacheLookup_filter_none c key (fun k => k == key) (by simp)

theorem cacheLookup_cacheDelete_of_none {α : Type} (c : Cache α)
    (key key' : String) (h : cacheLookup c key = none) :
    cacheLookup (cacheDelete c key') key = none :=
  cacheLookup_filter_of_none c key _ h

theorem cacheLookup_deletePattern_of_none {α : Type} (c : Cache α)
    (pattern key : String) (h : cacheLookup c key = none) :
    cacheLookup (cacheDeletePattern c pattern) key = none :=
  cacheLookup_filter_of_none c key _ h

theorem cacheGet_of_lookup_none {α : Type} (c : Cache α) (key : String)
    (now : Nat) (h : cacheLookup c key = none) :
    cacheGet c key now = (none, c) := by
  unfold cacheGet
  rw [h]

theorem cacheLookup_cacheSet_self {α : Type} (c : Cache α) (key : String)
    (v : α) (now ttlMs : Nat) :
    cacheLookup (cacheSet c key v now ttlMs) key = some ⟨v, now + ttlMs⟩ := by
  unfold cacheSet cacheLookup
  rw [List.find?_cons_of_pos _ (by simp)]
  rfl

/-! ## Helper lemmas: the `deletePattern` regex on prefix globs -/

theorem tokMatch_tokOf_self (c : Char) : tokMatch (tokOf c) c = true := by
  unfold tokOf
  split
  · rfl
  · simp [tokMatch]

theorem replaceFirstStar_append_star (l : List Char) (h : '*' ∉ l) :
    replaceFirstStar (l ++ ['*']) = l ++ ['.', '*'] := by
  induction l with
  | nil => rfl
  | cons c rest ih =>
    have hc : (c == '*') = false := by
      rw [beq_eq_false_iff_ne]
      exact fun hh => h (hh ▸ List.mem_cons_self c rest)
    have hrest : '*' ∉ rest := fun hh => h (List.mem_cons_of_mem c hh)
    rw [List.cons_append]
    rw [show replaceFirstStar (c :: (rest ++ ['*']))
        = c :: replaceFirstStar (rest ++ ['*']) by simp [replaceFirstStar, hc]]
    rw [ih hrest]
    rfl

theorem parseToks_lits_append (l : List Char) (h : '*' ∉ l) :
    parseToks (l ++ ['.', '*'])
      = (l.map fun c => RItem.mk (tokOf c) false) ++ [⟨.anyc, true⟩] := by
  induction l with
  | nil => simp [parseToks, tokOf]
  | cons c rest ih =>
    have hrest : '*' ∉ rest := fun hh => h (List.mem_cons_of_mem c hh)
    rw [List.cons_append]
    cases rest with
    | nil => simp [parseToks, tokOf]
    | cons d rest' =>
      have hd : (d == '*') = false := by
        rw [beq_eq_false_iff_ne]
        exact fun hh => hrest (hh ▸ List.mem_cons_self d rest')
      rw [show parseToks (c :: (d :: rest' ++ ['.', '*']))
          = ⟨tokOf c, false⟩ :: parseToks (d :: rest' ++ ['.', '*']) by
        simp [parseToks, hd]]
      rw [show (d :: rest' ++ ['.', '*']) = ((d :: rest') ++ ['.', '*']) by simp]
      rw [ih hrest]
      rfl

theorem matchHere_anyStar (cs : List Char) :
    matchHere [⟨.anyc, true⟩] cs = true := by
  cases cs with
  | nil => rfl
  | cons c cs' =>
    show matchStar .anyc (matchHere []) (c :: cs') = true
    unfold matchStar
    simp [matchHere]

theorem matchHere_lits_append (l : List Char) (ts : List RItem) (cs : List Char) :
    matchHere ((l.map fun c => RItem.mk (tokOf c) false) ++ ts) (l ++ cs)
      = matchHere ts cs := by
  induction l with
  | nil => rfl
  | cons c rest ih =>
    rw [List.map_cons, List.cons_append, List.cons_append]
    show (tokMatch (tokOf c) c && _) = _
    rw [tokMatch_tokOf_self, Bool.true_and, ih]

theorem regexSearch_of_matchHere (toks : List RItem) (cs : List Char)
    (h : matchHere toks cs = true) : regexSearch toks cs = true := by
  cases cs with
  | nil => exact h
  | cons c cs' =>
    unfold regexSearch
    rw [h, Bool.true_or]

/-- The backbone of every invalidation proof: a prefix glob `pre ++ "*"`
(with a star-free `pre`) matches every key extending `pre`. -/
theorem regexTest_of_startsWith (pre key : String) (hstar : '*' ∉ pre.toList)
    (h : pre.toList <+: key.toList) :
    regexTest (pre ++ "*") key = true := by
  obtain ⟨rest, hrest⟩ := h
  unfold regexTest
  have hdata : (pre ++ "*").toList = pre.toList ++ ['*'] := String.data_append ..
  rw [hdata, replaceFirstStar_append_star _ hstar, parseToks_lits_append _ hstar,
    ← hrest]
  exact regexSearch_of_matchHere _ _
    (by rw [matchHere_lits_append]; exact matchHere_anyStar rest)

/-! ## Helper lemmas: characters of a valid UUID -/

theorem splitOnChar_ne_nil (sep : Char) (cs : List Char) :
    splitOnChar sep cs ≠ [] := by
  cases cs with
  | nil => simp [splitOnChar]
  | cons c rest =>
    unfold splitOnChar
    cases splitOnChar sep rest with
    | nil => simp
    | cons g gs =>
      by_cases hc : (c == sep) = true <;> simp [hc]

theorem mem_splitOnChar (sep : Char) (cs : List Char) (d : Char) (hd : d ∈ cs) :
    d = sep ∨ ∃ g ∈ splitOnChar sep cs, d ∈ g := by
  induction cs with
  | nil => cases hd
  | cons c rest ih =>
    cases hs : splitOnChar sep rest with
    | nil => exact absurd hs (splitOnChar_ne_nil sep rest)
    | cons g gs =>
      have hres : splitOnChar sep (c :: rest)
          = if c == sep then [] :: g :: gs else (c :: g) :: gs := by
        unfold splitOnChar
        rw [hs]
      rcases List.mem_cons.1 hd with rfl | hmem
      · by_cases hc : (d == sep) = true
        · exact Or.inl (by simpa using hc)
        · refine Or.inr ⟨d :: g, ?_, List.mem_cons_self d g⟩
          rw [hres, if_neg (by simp [hc])]
          exact List.mem_cons_self _ _
      · rcases ih hmem with hsep | ⟨g', hg', hdg'⟩
        · exact Or.inl hsep
        · rw [hs] at hg'
          by_cases hc : (c == sep) = true
          · refine Or.inr ⟨g', ?_, hdg'⟩
            rw [hres, if_pos hc]
            exact List.mem_cons_of_mem _ hg'
          · rcases List.mem_cons.1 hg' with rfl | hgs
            · refine Or.inr ⟨c :: g', ?_, List.mem_cons_of_mem c hdg'⟩
              rw [hres, if_neg hc]
              exact List.mem_cons_self _ _
            · refine Or.inr ⟨g', ?_, hdg'⟩
              rw [hres, if_neg hc]
              exact List.mem_cons_of_mem _ hgs

theorem isValidId_groups (s : String) (h : isValidId s = true) :
    ∃ g1 g2 g3 g4 g5, splitOnChar '-' s.toList = [g1, g2, g3, g4, g5] ∧
      g1.all isHexChar = true ∧ g2.all isHexChar = true ∧
      g3.all isHexChar = true ∧ g4.all isHexChar = true ∧
      g5.all isHexChar = true := by
  unfold isValidId at h
  rcases hsplit : splitOnChar '-' s.toList
    with _ | ⟨g1, _ | ⟨g2, _ | ⟨g3, _ | ⟨g4, _ | ⟨g5, _ | _⟩⟩⟩⟩⟩ <;>
    rw [hsplit] at h <;> [simp at h; simp at h; simp at h; simp at h; simp at h;
      skip; simp at h]
  simp only [Bool.and_eq_true] at h
  obtain ⟨⟨⟨⟨⟨⟨⟨⟨⟨⟨⟨-, -⟩, -⟩, -⟩, -⟩, ha1⟩, ha2⟩, ha3⟩, ha4⟩, ha5⟩, -⟩, -⟩ := h
  exact ⟨g1, g2, g3, g4, g5, rfl, ha1, ha2, ha3, ha4, ha5⟩

theorem isValidId_chars (s : String) (h : isValidId s = true) :
    ∀ d ∈ s.toList, d = '-' ∨ isHexChar d = true := by
  obtain ⟨g1, g2, g3, g4, g5, hsplit, h1, h2, h3, h4, h5⟩ := isValidId_groups s h
  intro d hd
  rcases mem_splitOnChar '-' s.toList d hd with hsep | ⟨g, hg, hdg⟩
  · exact Or.inl hsep
  · rw [hsplit] at hg
    fin_cases hg
    · exact Or.inr (List.all_eq_true.1 h1 d hdg)
    · exact Or.inr (List.all_eq_true.1 h2 d hdg)
    · exact Or.inr (List.all_eq_true.1 h3 d hdg)
    · exact Or.inr (List.all_eq_true.1 h4 d hdg)
    · exact Or.inr (List.all_eq_true.1 h5 d hdg)

theorem star_not_mem_of_isValidId (s : String) (h : isValidId s = true) :
    '*' ∉ s.toList := by
  intro hmem
  rcases isValidId_chars s h '*' hmem with heq | hhex
  · exact absurd heq (by decide)
  · exact absurd hhex (by decide)

/-! ## Helper lemmas: cache key shapes -/

theorem toList_append (s t : String) : (s ++ t).toList = s.toList ++ t.toList :=
  String.data_append s t

theorem keyFeed_startsWith (page : Nat) :
    "posts:feed:".toList <+: (keyFeed page).toList := by
  refine ⟨"page:".toList ++ (toString page).toList, ?_⟩
  unfold keyFeed
  rw [toList_append]
  rw [show ("posts:feed:page:".toList : List Char)
      = "posts:feed:".toList ++ "page:".toList by decide]
  rw [List.append_assoc]

theorem keyUserPosts_startsWith (uid : String) (page : Nat) :
    ("posts:user:" ++ uid ++ ":").toList <+: (keyUserPosts uid page).toList := by
  refine ⟨"page:".toList ++ (toString page).toList, ?_⟩
  unfold keyUserPosts
  rw [toList_append, toList_append, toList_append, toList_append]
  rw [show (":page:".toList : List Char) = ":".toList ++ "page:".toList by decide]
  simp [List.append_assoc]

theorem star_not_mem_feedGlob : '*' ∉ ("posts:feed:".toList : List Char) := by
  decide

theorem star_not_mem_userGlob (uid : String) (h : isValidId uid = true) :
    '*' ∉ ("posts:user:" ++ uid ++ ":").toList := by
  rw [toList_append, toList_append]
  intro hmem
  rcases List.mem_append.1 hmem with hl | hr
  · rcases List.mem_append.1 hl with ha | hb
    · exact absurd ha (by decide)
    · exact star_not_mem_of_isValidId uid h hb
  · exact absurd hr (by decide)

/-! ## Helper lemmas: posts store -/

theorem mem_insertSorted {α : Type} (le : α → α → Bool) (x a : α) :
    ∀ l : List α, a ∈ insertSorted le x l → a = x ∨ a ∈ l := by
  intro l
  induction l with
  | nil =>
    intro h
    rw [show insertSorted le x [] = [x] from rfl] at h
    exact Or.inl (by simpa using h)
  | cons y ys ih =>
    intro h
    unfold insertSorted at h
    split at h
    · rcases List.mem_cons.1 h with rfl | h2
      · exact Or.inl rfl
      · exact Or.inr h2
    · rcases List.mem_cons.1 h with rfl | h2
      · exact Or.inr (List.mem_cons_self _ _)
      · rcases ih h2 with rfl | h3
        · exact Or.inl rfl
        · exact Or.inr (List.mem_cons_of_mem _ h3)

theorem mem_sortByLe {α : Type} (le : α → α → Bool) (a : α) :
    ∀ l : List α, a ∈ sortByLe le l → a ∈ l := by
  intro l
  induction l with
  | nil =>
    intro h
    rw [show sortByLe le ([] : List α) = [] from rfl] at h
    cases h
  | cons x xs ih =>
    intro h
    unfold sortByLe at h
    rcases mem_insertSorted le x a _ h with rfl | h2
    · exact List.mem_cons_self _ _
    · exact List.mem_cons_of_mem _ (ih h2)

theorem mem_findPosts_props (db : DBState) (uf : Option String)
    (ob : Option String) (lim off : Option Nat) (q : Post)
    (hq : q ∈ findPosts db uf true ob lim off) :
    q ∈ db.posts ∧ q.deletedAt = none ∧
      (∀ uid, uf = some uid → q.userId = uid) := by
  simp only [findPosts] at hq
  have hq1 := List.drop_subset _ _ (List.take_subset _ _ hq)
  have hq2 : q ∈ (match uf with
      | some uid => db.posts.filter fun (p : Post) => p.userId == uid
      | none => db.posts).filter (fun (p : Post) => p.deletedAt == none) := by
    rcases ob with _ | ord
    · exact hq1
    · exact mem_sortByLe _ _ _ hq1
  rw [List.mem_filter] at hq2
  have hdel : q.deletedAt = none := by simpa using hq2.2
  rcases uf with _ | uid
  · exact ⟨hq2.1, hdel, by intro uid huid; cases huid⟩
  · have := List.mem_filter.1 hq2.1
    refine ⟨this.1, hdel, ?_⟩
    intro uid' huid'
    injection huid' with huid'
    rw [← huid']
    simpa using this.2

theorem mem_enrichPosts (cfg : Config) (db : DBState) (now : Nat)
    (ps : List Post) : ∀ (c : Cache CacheValue) (x : PostWithAuthor),
    x ∈ (enrichPosts cfg db c now ps).1 → x.post ∈ ps := by
  induction ps with
  | nil => intro c x hx; simp [enrichPosts] at hx
  | cons p rest ih =>
    intro c x hx
    simp only [enrichPosts] at hx
    cases hr : (userGetById cfg db c now p.userId).1 with
    | error e =>
      rw [hr] at hx
      dsimp only at hx
      exact List.mem_cons_of_mem p (ih _ x hx)
    | ok author =>
      rw [hr] at hx
      dsimp only at hx
      rcases List.mem_cons.1 hx with rfl | hmem
      · exact List.mem_cons_self _ _
      · exact List.mem_cons_of_mem p (ih _ x hmem)

theorem live_updateFirstPost (pid : String) (now : Nat) :
    ∀ (l : List Post), ((l.map (·.id)).Nodup) →
    ∀ q ∈ updateFirstPost pid (fun p => { p with deletedAt := some now }) l,
      q.deletedAt = none → q.id ≠ pid := by
  intro l
  induction l with
  | nil => intro _ q hq; simp [updateFirstPost] at hq
  | cons p rest ih =>
    intro hn q hq hlive
    rw [List.map_cons, List.nodup_cons] at hn
    unfold updateFirstPost at hq
    by_cases hp : (p.id == pid) = true
    · rw [if_pos hp] at hq
      rcases List.mem_cons.1 hq with rfl | hmem
      · simp at hlive
      · intro hqid
        apply hn.1
        rw [beq_iff_eq] at hp
        rw [hp, ← hqid]
        exact List.mem_map.2 ⟨q, hmem, rfl⟩
    · rw [if_neg hp] at hq
      rcases List.mem_cons.1 hq with rfl | hmem
      · exact fun hh => hp (beq_iff_eq.2 hh)
      · exact ih hn.2 q hmem hlive

theorem find?_updateFirstPost (pid : String) (f : Post → Post)
    (hf : ∀ p, (f p).id = p.id) :
    ∀ (l : List Post) (p0 : Post),
    l.find? (fun p => p.id == pid) = some p0 →
    (updateFirstPost pid f l).find? (fun p => p.id == pid) = some (f p0) := by
  intro l
  induction l with
  | nil => intro p0 hfind; simp at hfind
  | cons p rest ih =>
    intro p0 hfind
    unfold updateFirstPost
    by_cases hp : (p.id == pid) = true
    · rw [if_pos hp]
      rw [@List.find?_cons_of_pos _ (fun q => q.id == pid) p rest hp] at hfind
      injection hfind with hfind
      rw [@List.find?_cons_of_pos _ (fun q => q.id == pid) (f p) rest
        (by show ((f p).id == pid) = true; rw [hf p]; exact hp), hfind]
    · rw [if_neg hp]
      rw [@List.find?_cons_of_neg _ (fun q => q.id == pid) p rest hp] at hfind
      rw [@List.find?_cons_of_neg _ (fun q => q.id == pid) p _ hp]
      exact ih p0 hfind

/-! ## Helper lemmas: users store shape (used by the lockout run) -/

theorem find?_append_skip {α : Type} (us : List α) (u : α) (vs : List α)
    (pred : α → Bool) (hus : ∀ v ∈ us, pred v = false) (hu : pred u = true) :
    (us ++ u :: vs).find? pred = some u := by
  rw [List.find?_append]
  rw [List.find?_eq_none.2 (by intro x hx; simp [hus x hx])]
  rw [List.find?_cons_of_pos _ hu]
  rfl

theorem updateFirstUser_append (id : String) (f : UserRecord → UserRecord) :
    ∀ (us : List UserRecord) (u : UserRecord) (vs : List UserRecord),
    (∀ v ∈ us, (v.id == id) = false) → (u.id == id) = true →
    updateFirstUser id f (us ++ u :: vs) = us ++ f u :: vs := by
  intro us
  induction us with
  | nil =>
    intro u vs _ hu
    simp only [List.nil_append]
    unfold updateFirstUser
    rw [if_pos hu]
  | cons w ws ih =>
    intro u vs hus hu
    rw [List.cons_append, List.cons_append]
    unfold updateFirstUser
    rw [if_neg (by rw [hus w (List.mem_cons_self w ws)]; simp)]
    rw [ih u vs (fun v hv => hus v (List.mem_cons_of_mem w hv)) hu]

/-! ## C3 — cache-aside get-or-compute -/

/-- C3: the get-or-compute read path returns the cached value without invoking
the loader iff an entry for the key is present and `now ≤ expiresAt`; it never
serves a value whose `expiresAt` is in the past; on a miss (absent or expired)
it invokes the loader, stores the result under the key with the configured TTL
(`expiresAt = now + ttlMs`), and returns that result. -/
theorem cacheGetOrCompute_spec {α : Type} (c : Cache α) (key : String)
    (now ttlMs : Nat) (loader : Except AppErr α) :
    (∀ e : CacheEntry α, cacheLookup c key = some e → now ≤ e.expiresAt →
      cacheGetOrCompute c key now ttlMs loader = .ok (e.value, c, false))
    ∧ (∀ (v : α) (c' : Cache α),
      cacheGetOrCompute c key now ttlMs loader = .ok (v, c', false) →
      ∃ e : CacheEntry α, cacheLookup c key = some e ∧ v = e.value ∧
        now ≤ e.expiresAt)
    ∧ (∀ v : α, loader = .ok v → cacheLookup c key = none →
      cacheGetOrCompute c key now ttlMs loader
        = .ok (v, cacheSet c key v now ttlMs, true))
    ∧ (∀ (e : CacheEntry α) (v : α), loader = .ok v →
      cacheLookup c key = some e → e.expiresAt < now →
      cacheGetOrCompute c key now ttlMs loader
        = .ok (v, cacheSet (cacheDelete c key) key v now ttlMs, true))
    ∧ (∀ v : α, cacheLookup (cacheSet c key v now ttlMs) key
        = some ⟨v, now + ttlMs⟩) := by
  refine ⟨?_, ?_, ?_, ?_, fun v => cacheLookup_cacheSet_self c key v now ttlMs⟩
  · intro e he hle
    unfold cacheGetOrCompute cacheGet
    rw [he]
    dsimp only
    rw [if_neg (by omega)]
  · intro v c' hres
    unfold cacheGetOrCompute cacheGet at hres
    cases hl : cacheLookup c key with
    | none =>
      rw [hl] at hres
      dsimp only at hres
      rcases loader with e | w <;> simp at hres
    | some e =>
      rw [hl] at hres
      dsimp only at hres
      by_cases hex : now > e.expiresAt
      · rw [if_pos hex] at hres
        dsimp only at hres
        rcases loader with e' | w <;> simp at hres
      · rw [if_neg hex] at hres
        dsimp only at hres
        simp only [Except.ok.injEq, Prod.mk.injEq] at hres
        exact ⟨e, rfl, hres.1.symm, by omega⟩
  · intro v hv hnone
    unfold cacheGetOrCompute cacheGet
    rw [hnone]
    dsimp only
    rw [hv]
  · intro e v hv he hex
    unfold cacheGetOrCompute cacheGet
    rw [he]
    dsimp only
    rw [if_pos (by omega)]
    dsimp only
    rw [hv]

/-- Witness for the C3 theorem: a fresh hit within TTL is served from the
cache without the loader, and a cold read runs the loader and stores it. -/
theorem cacheGetOrCompute_spec_witness :
    cacheGetOrCompute [("k", ⟨(7 : Nat), 100⟩)] "k" 50 300000 (.ok 9)
      = .ok (7, [("k", ⟨7, 100⟩)], false)
    ∧ cacheGetOrCompute ([] : Cache Nat) "k" 50 300000 (.ok 9)
      = .ok (9, cacheSet [] "k" 9 50 300000, true) :=
  ⟨(cacheGetOrCompute_spec [("k", ⟨7, 100⟩)] "k" 50 300000 (.ok 9)).1
      ⟨7, 100⟩ (by decide) (by decide),
   (cacheGetOrCompute_spec [] "k" 50 300000 (.ok 9)).2.2.1 9 rfl (by decide)⟩

/-! ## C9 — transaction rollback -/

theorem jsonRoundTripUser_id (u : UserRecord) : jsonRoundTripUser u = u := rfl

theorem jsonRoundTripPost_id (p : Post) : jsonRoundTripPost p = p := rfl

/-- C9: if the callback passed to the storage transaction wrapper throws, the
users and posts stores are restored to exactly the state they had when the
transaction began, and the original error is propagated to the caller. -/
theorem DBtransaction_rollback {α : Type} (db : DBState)
    (cb : DBState → Except AppErr (α × DBState)) (e : AppErr)
    (hcb : cb db = .error e) :
    DBtransaction db cb = (.error e, db) := by
  unfold DBtransaction
  rw [hcb]
  have hu : db.users.map jsonRoundTripUser = db.users := by
    rw [show jsonRoundTripUser = id from funext fun u => jsonRoundTripUser_id u]
    exact List.map_id db.users
  have hp : db.posts.map jsonRoundTripPost = db.posts := by
    rw [show jsonRoundTripPost = id from funext fun p => jsonRoundTripPost_id p]
    exact List.map_id db.posts
  rw [hu, hp]

/-- Witness for the C9 theorem: a failing write against a concrete nonempty
store leaves the store exactly as it began and surfaces the error. -/
theorem DBtransaction_rollback_witness :
    DBtransaction (α := Bool) dbA
      (fun db => if db.users.length = 1 then .error (.validation "boom")
                 else .ok (true, ⟨[], []⟩))
      = (.error (.validation "boom"), dbA) :=
  DBtransaction_rollback dbA _ (.validation "boom") (by decide)

/-! ## C2 — account enumeration through `authenticate` (corrected: a locked
account is distinguishable) -/

/-- C2 counterexample: the claim quantifies over every password input and
every existing active account, but an existing ACTIVE account that is
currently locked answers `AccountLocked` (code `ACCOUNT_LOCKED`, status 423)
to a wrong password, while a non-existent email answers `InvalidCredentials`
(code `INVALID_CREDENTIALS`, status 401) — different shape and code, so the
observable result does reveal that the locked account's email exists. -/
theorem authenticate_locked_account_distinguishable :
    (authenticate defaultConfig testVerify dbLocked 10 "ghost@x.com" "wrong").1
      = .error (.invalidCredentials "Invalid email or password")
    ∧ (authenticate defaultConfig testVerify dbLocked 10 "a@x.com" "wrong").1
      = .error (.accountLocked
          "Account temporarily locked due to multiple failed login attempts")
    ∧ AppErr.code (.accountLocked
          "Account temporarily locked due to multiple failed login attempts")
      ≠ AppErr.code (.invalidCredentials "Invalid email or password")
    ∧ AppErr.statusCode (.accountLocked
          "Account temporarily locked due to multiple failed login attempts")
      ≠ AppErr.statusCode (.invalidCredentials "Invalid email or password") := by
  refine ⟨by decide, by decide, by decide, by decide⟩

/-- C2 (amended): authenticate with an email that has no stored record and
authenticate with an existing active user's email that is NOT currently
locked but a wrong password fail with literally the same
`InvalidCredentials` error — same constructor, same message, machine code
`INVALID_CREDENTIALS`, status 401 — so within the unlocked population the
observable result does not reveal whether the email exists; a currently
locked account instead answers `AccountLocked` (see the counterexample). -/
theorem authenticate_no_enumeration (cfg : Config)
    (verify : String → String → Bool) (db1 db2 : DBState) (now1 now2 : Nat)
    (email1 email2 pw1 pw2 : String) (u : UserRecord)
    (h1e : isValidEmail email1 = true) (h1p : isNonEmptyString pw1 = true)
    (h2e : isValidEmail email2 = true) (h2p : isNonEmptyString pw2 = true)
    (hmiss : findUserByEmail db1 (normalizeEmail email1) = none)
    (hhit : findUserByEmail db2 (normalizeEmail email2) = some u)
    (hact : u.status = "ACTIVE")
    (hnl : lockedNow u.lockedUntil now2 = false)
    (hwrong : verify pw2 u.passwordHash = false) :
    (authenticate cfg verify db1 now1 email1 pw1).1
      = .error (.invalidCredentials "Invalid email or password")
    ∧ (authenticate cfg verify db2 now2 email2 pw2).1
      = .error (.invalidCredentials "Invalid email or password")
    ∧ AppErr.code (.invalidCredentials "Invalid email or password")
      = "INVALID_CREDENTIALS"
    ∧ AppErr.statusCode (.invalidCredentials "Invalid email or password")
      = 401 := by
  have hval1 : validateLogin email1 pw1 = .ok () := by
    unfold validateLogin
    rw [h1e, h1p]
    rfl
  have hval2 : validateLogin email2 pw2 = .ok () := by
    unfold validateLogin
    rw [h2e, h2p]
    rfl
  refine ⟨?_, ?_, rfl, rfl⟩
  · unfold authenticate
    rw [hval1]
    dsimp only
    rw [hmiss]
  · unfold authenticate
    rw [hval2]
    dsimp only
    rw [hhit]
    dsimp only
    rw [hnl, hact, hwrong]
    simp

/-- Witness for the C2 theorem: against a concrete store holding only `userA`,
an unknown email and a wrong password for `userA` produce the same error. -/
theorem authenticate_no_enumeration_witness :
    (authenticate defaultConfig testVerify dbA 5 "ghost@x.com" "whatever").1
      = .error (.invalidCredentials "Invalid email or password")
    ∧ (authenticate defaultConfig testVerify dbA 5 "a@x.com" "wrong").1
      = .error (.invalidCredentials "Invalid email or password") := by
  have h := authenticate_no_enumeration defaultConfig testVerify dbA dbA 5 5
    "ghost@x.com" "a@x.com" "whatever" "wrong" userA
    (by decide) (by decide) (by decide) (by decide) (by decide) (by decide)
    (by decide) (by decide) (by decide)
  exact ⟨h.1, h.2.1⟩

/-! ## C7 — malformed login input (corrected: ValidationError, not
InvalidCredentials) -/

/-- C7 counterexample: `authenticate` with a malformed email fails with a
`ValidationError` whose machine code is `VALIDATION_ERROR`, not the
`INVALID_CREDENTIALS` the claim asserts. -/
theorem authenticate_malformed_email_error_code :
    authenticate defaultConfig testVerify dbA 0 "notanemail" "pw"
      = (.error (.validation "Invalid email or password"), dbA)
    ∧ AppErr.code (.validation "Invalid email or password")
      ≠ "INVALID_CREDENTIALS" := by
  constructor
  · decide
  · decide

/-- C7 (amended): for every input where the email is malformed or the password
is not a non-empty string, `authenticate` fails with `ValidationError`
(code `VALIDATION_ERROR`), produced before any storage lookup: the result is
the same for every store state and the store is left unchanged. -/
theorem authenticate_malformed_rejected_before_lookup (cfg : Config)
    (verify : String → String → Bool) (db : DBState) (now : Nat)
    (email password : String)
    (h : isValidEmail email = false ∨ isNonEmptyString password = false) :
    authenticate cfg verify db now email password
      = (.error (.validation "Invalid email or password"), db) := by
  have hval : validateLogin email password
      = .error (.validation "Invalid email or password") := by
    unfold validateLogin
    rcases h with h | h <;> rw [h] <;> simp
  unfold authenticate
  rw [hval]

/-- Witness for the amended C7 theorem at a concrete malformed email. -/
theorem authenticate_malformed_rejected_witness :
    authenticate defaultConfig testVerify dbA 3 "not-an-email" "secretpw"
      = (.error (.validation "Invalid email or password"), dbA) :=
  authenticate_malformed_rejected_before_lookup defaultConfig testVerify dbA 3
    "not-an-email" "secretpw" (Or.inl (by decide))

/-! ## C10 — a locked account rejects any attempt without bookkeeping -/

/-- C10: while `lockedUntil` is strictly in the future, `authenticate` (with
any password, correct or not) throws `AccountLocked` and leaves the store —
in particular `failedLoginCount` and `lockedUntil` of the record — unchanged:
the failed-attempt bookkeeping runs only on the invalid-credentials branch,
which the lock check precedes. -/
theorem authenticate_locked_no_sideeffect (cfg : Config)
    (verify : String → String → Bool) (db : DBState) (now : Nat)
    (email password : String) (u : UserRecord) (t : Nat)
    (he : isValidEmail email = true) (hp : isNonEmptyString password = true)
    (hfind : findUserByEmail db (normalizeEmail email) = some u)
    (hlock : u.lockedUntil = some t) (hfut : now < t) :
    authenticate cfg verify db now email password
      = (.error (.accountLocked
          "Account temporarily locked due to multiple failed login attempts"),
        db) := by
  have hval : validateLogin email password = .ok () := by
    unfold validateLogin
    rw [he, hp]
    rfl
  have hln : lockedNow u.lockedUntil now = true := by
    unfold lockedNow
    rw [hlock]
    simp [hfut]
  unfold authenticate
  rw [hval]
  dsimp only
  rw [hfind]
  dsimp only
  rw [hln]
  rfl

/-- Witness for the C10 theorem: a locked record rejects even the correct
password and the store is returned exactly as it was. -/
theorem authenticate_locked_no_sideeffect_witness :
    authenticate defaultConfig testVerify dbLocked 10 "a@x.com" "password1"
      = (.error (.accountLocked
          "Account temporarily locked due to multiple failed login attempts"),
        dbLocked) :=
  authenticate_locked_no_sideeffect defaultConfig testVerify dbLocked 10
    "a@x.com" "password1" userLocked 1000 (by decide) (by decide) (by decide)
    (by decide) (by decide)

/-! ## C8 — pagination validation (corrected: out-of-range limit is rejected
with `ValidationError`, not clamped) -/

/-- C8 counterexample: a supplied limit of 150 is not clamped to 100 — the
validator throws `ValidationError` instead. -/
theorem validatePagination_limit_not_clamped :
    validatePagination (some 150) none none
      = .error (.validation "Limit must be an integer between 1 and 100")
    ∧ validatePagination (some 150) none none ≠ .ok (100, 0, "DESC") := by
  constructor
  · decide
  · decide

/-- C8 (amended): an omitted limit defaults to 20 and a supplied limit must
already lie in 1–100 (an out-of-range limit fails with `ValidationError`
rather than being clamped; in range it is used as-is); an omitted offset
defaults to 0 and a supplied offset must be ≥ 0; an omitted order defaults to
DESC and a supplied order accepts ASC or DESC case-insensitively (uppercased
in the result). -/
theorem validatePagination_spec :
    (validatePagination none none none = .ok (20, 0, "DESC"))
    ∧ (∀ l : Int, 1 ≤ l → l ≤ 100 →
        validatePagination (some l) none none = .ok (l, 0, "DESC"))
    ∧ (∀ l : Int, l < 1 ∨ 100 < l →
        validatePagination (some l) none none
          = .error (.validation "Limit must be an integer between 1 and 100"))
    ∧ (∀ o : Int, 0 ≤ o →
        validatePagination none (some o) none = .ok (20, o, "DESC"))
    ∧ (∀ o : Int, o < 0 →
        validatePagination none (some o) none
          = .error (.validation "Offset must be a non-negative integer"))
    ∧ (∀ ord : String,
        (jsToUpper ord == "ASC" || jsToUpper ord == "DESC") = true →
        validatePagination none none (some ord) = .ok (20, 0, jsToUpper ord))
    ∧ (∀ ord : String,
        (jsToUpper ord == "ASC" || jsToUpper ord == "DESC") = false →
        validatePagination none none (some ord)
          = .error (.validation "Order must be ASC or DESC")) := by
  refine ⟨by decide, ?_, ?_, ?_, ?_, ?_, ?_⟩
  · intro l h1 h2
    have hc : (decide (l < 1) || decide (l > 100)) = false := by
      simp only [Bool.or_eq_false_iff, decide_eq_false_iff_not]
      constructor <;> omega
    have hz : (l == 0) = false := by
      simp only [beq_eq_false_iff_ne]
      omega
    have hcl : clamp l 1 100 = l := by
      unfold clamp
      rw [max_eq_left h1, min_eq_left h2]
    simp [validatePagination, hc, hz, hcl]
  · intro l h
    have hc : (decide (l < 1) || decide (l > 100)) = true := by
      simp only [Bool.or_eq_true, decide_eq_true_eq]
      exact h
    simp [validatePagination, hc]
    rfl
  · intro o h0
    have hc : ¬(o < 0) := by omega
    by_cases hz : o = 0
    · simp [validatePagination, hz]
    · have hz' : (o == 0) = false := by
        simp only [beq_eq_false_iff_ne]
        exact hz
      simp [validatePagination, hc, hz']
  · intro o h0
    simp [validatePagination, h0]
    rfl
  · intro ord hord
    simp [validatePagination, hord]
  · intro ord hord
    simp [validatePagination, hord]
    rfl

/-- Witness for the amended C8 theorem at concrete in-range and defaulted
inputs. -/
theorem validatePagination_spec_witness :
    validatePagination (some 100) none none = .ok (100, 0, "DESC")
    ∧ validatePagination none (some 7) none = .ok (20, 7, "DESC")
    ∧ validatePagination none none (some "asc") = .ok (20, 0, jsToUpper "asc") :=
  ⟨(validatePagination_spec).2.1 100 (by decide) (by decide),
   (validatePagination_spec).2.2.2.1 7 (by decide),
   (validatePagination_spec).2.2.2.2.2.1 "asc" (by decide)⟩

/-! ## C6 — post content length (corrected: the 1..280 bound is validated on
the RAW content; sanitization runs afterwards and can shrink it to empty) -/

theorem length_dropWhile_le {α : Type} (p : α → Bool) (l : List α) :
    (l.dropWhile p).length ≤ l.length := by
  induction l with
  | nil => simp [List.dropWhile]
  | cons c rest ih =>
    simp only [List.dropWhile]
    split
    · exact Nat.le_succ_of_le ih
    · simp

theorem length_collapseWsAux_le (b : Bool) (l : List Char) :
    (collapseWsAux b l).length ≤ l.length := by
  induction l generalizing b with
  | nil => simp [collapseWsAux]
  | cons c rest ih =>
    simp only [collapseWsAux]
    split
    · split
      · exact Nat.le_succ_of_le (ih true)
      · simpa using ih true
    · simpa using ih false

theorem length_trimChars_le (l : List Char) :
    (trimChars l).length ≤ l.length := by
  unfold trimChars
  rw [List.length_reverse]
  calc (List.dropWhile isWs (List.dropWhile isWs l).reverse).length
      ≤ (List.dropWhile isWs l).reverse.length := length_dropWhile_le _ _
    _ = (List.dropWhile isWs l).length := List.length_reverse _
    _ ≤ l.length := length_dropWhile_le _ _

theorem sanitizeText_length_le (s : String) :
    (sanitizeText s).length ≤ s.length := by
  show (trimChars (collapseWs (s.toList.filter fun c =>
      c != '<' && c != '>'))).length ≤ s.toList.length
  calc (trimChars (collapseWs (s.toList.filter fun c =>
        c != '<' && c != '>'))).length
      ≤ (collapseWs (s.toList.filter fun c =>
        c != '<' && c != '>')).length := length_trimChars_le _
    _ ≤ (s.toList.filter fun c => c != '<' && c != '>').length :=
        length_collapseWsAux_le false _
    _ ≤ s.toList.length := List.length_filter_le _ _

theorem validatePostContent_ok_length (content : String)
    (h : validatePostContent content = .ok ()) : content.length ≤ 280 := by
  unfold validatePostContent at h
  by_cases h1 : isNonEmptyString content
  · rw [if_neg (by simp [h1])] at h
    by_cases h2 : content.length > 280
    · rw [if_pos (by simpa using h2)] at h
      cases h
    · omega
  · rw [if_pos (by simpa using h1)] at h
    cases h

/-- C6 counterexample: the two-character content `"<>"` passes
`validatePostContent` (it is non-blank and within 280 characters), yet after
sanitization the persisted post's content is the empty string — length 0,
strictly below the claimed lower bound of 1. -/
theorem postCreate_angle_brackets_persists_empty :
    validatePostContent "<>" = .ok ()
    ∧ sanitizeText "<>" = ""
    ∧ (postCreate ⟨dbA, []⟩ 50 uuidB uuidA "<>").1
      = .ok { id := uuidB, userId := uuidA, content := "", createdAt := 50,
              deletedAt := none }
    ∧ ("" : String).length = 0 := by
  refine ⟨by decide, by decide, by decide, rfl⟩

/-- C6 (amended): the content length bound is enforced on the raw content
before persistence — non-blank content of exactly 280 characters is accepted,
content of 281 characters fails with `ValidationError` — and every persisted
post's content equals the sanitized input, of length at most 280; sanitization
may shrink it below 1 (see the counterexample). -/
theorem postContent_length_spec :
    (∀ content : String, isNonEmptyString content = true →
      content.length = 280 → validatePostContent content = .ok ())
    ∧ (∀ content : String, content.length = 281 →
      ∃ m, validatePostContent content = .error (.validation m))
    ∧ (∀ (s : AppState) (now : Nat) (newId uid content : String)
        (post : Post) (s' : AppState),
      postCreate s now newId uid content = (.ok post, s') →
      post.content = sanitizeText content ∧ post.content.length ≤ 280) := by
  refine ⟨?_, ?_, ?_⟩
  · intro content hne hlen
    unfold validatePostContent
    rw [if_neg (by simp [hne]), if_neg (by simp [hlen])]
  · intro content hlen
    unfold validatePostContent
    by_cases h1 : isNonEmptyString content
    · refine ⟨"Post content must be less than 280 characters", ?_⟩
      rw [if_neg (by simp [h1]), if_pos (by simp [hlen])]
    · refine ⟨"Post content cannot be empty", ?_⟩
      rw [if_pos (by simpa using h1)]
  · intro s now newId uid content post s' h
    cases hvid : isValidId uid with
    | false =>
      unfold postCreate at h
      rw [hvid] at h
      simp at h
    | true =>
      unfold postCreate at h
      rw [hvid] at h
      rw [if_neg (by decide)] at h
      cases hvc : validatePostContent content with
      | error e =>
        rw [hvc] at h
        simp at h
      | ok u =>
        rw [hvc] at h
        dsimp only at h
        unfold DBtransaction at h
        dsimp only at h
        cases hany : s.db.users.any fun u =>
            u.id == uid && u.deletedAt == none && u.status == "ACTIVE" with
        | false =>
          rw [hany] at h
          simp at h
        | true =>
          rw [hany] at h
          rw [if_neg (by decide)] at h
          dsimp only [createPost] at h
          simp only [Prod.mk.injEq, Except.ok.injEq] at h
          have hpost := h.1.symm
          subst hpost
          refine ⟨rfl, ?_⟩
          have h280 := validatePostContent_ok_length content hvc
          exact le_trans (sanitizeText_length_le content) h280

set_option maxRecDepth 8192 in
/-- Witness for the amended C6 theorem: 280 × `'a'` is accepted, 281 × `'a'`
is rejected, and a concrete successful creation persists the sanitized
content within the bound. -/
theorem postContent_length_spec_witness :
    validatePostContent (String.mk (List.replicate 280 'a')) = .ok ()
    ∧ (∃ m, validatePostContent (String.mk (List.replicate 281 'a'))
        = .error (.validation m))
    ∧ (postHi.content = sanitizeText "hi" ∧ postHi.content.length ≤ 280) :=
  ⟨postContent_length_spec.1 _ (by decide) (by decide),
   postContent_length_spec.2.1 _ (by decide),
   postContent_length_spec.2.2 ⟨dbA, []⟩ 50 uuidB uuidA "hi" postHi
     ⟨⟨[userA], [postHi]⟩, []⟩ (by decide)⟩

/-! ## C4 — cache invalidation on writes -/

theorem regexTest_feedPattern (key : String)
    (h : "posts:feed:".toList <+: key.toList) :
    regexTest "posts:feed:*" key = true := by
  have hres := regexTest_of_startsWith "posts:feed:" key (by decide) h
  unfold regexTest at hres ⊢
  have hteq : (("posts:feed:" ++ "*" : String)).toList
      = ("posts:feed:*" : String).toList := by decide
  rw [← hteq]
  exact hres

theorem regexTest_userPattern (uid key : String) (hvid : isValidId uid = true)
    (h : ("posts:user:" ++ uid ++ ":").toList <+: key.toList) :
    regexTest ("posts:user:" ++ uid ++ ":*") key = true := by
  have hres := regexTest_of_startsWith ("posts:user:" ++ uid ++ ":") key
    (star_not_mem_userGlob uid hvid) h
  unfold regexTest at hres ⊢
  have hteq : ((("posts:user:" ++ uid ++ ":") ++ "*" : String)).toList
      = (("posts:user:" ++ uid ++ ":*" : String)).toList := by
    rw [toList_append, toList_append, toList_append, toList_append,
      toList_append]
    simp only [List.append_assoc]
    rw [show (":".toList ++ "*".toList : List Char) = ":*".toList by decide]
  rw [← hteq]
  exact hres

/-- Shape of a successful `PostModel.create`: the author id was valid and the
final cache is the initial one with both glob families deleted. -/
theorem postCreate_ok_shape (s : AppState) (now : Nat)
    (newId uid content : String) (post : Post) (s' : AppState)
    (h : postCreate s now newId uid content = (.ok post, s')) :
    isValidId uid = true
    ∧ s'.cache = cacheDeletePattern
        (cacheDeletePattern s.cache ("posts:user:" ++ uid ++ ":*"))
        "posts:feed:*" := by
  cases hvid : isValidId uid with
  | false =>
    unfold postCreate at h
    rw [hvid] at h
    simp at h
  | true =>
    refine ⟨rfl, ?_⟩
    unfold postCreate at h
    rw [hvid] at h
    rw [if_neg (by decide)] at h
    cases hvc : validatePostContent content with
    | error e =>
      rw [hvc] at h
      simp at h
    | ok u =>
      rw [hvc] at h
      dsimp only at h
      unfold DBtransaction at h
      dsimp only at h
      cases hany : s.db.users.any fun u =>
          u.id == uid && u.deletedAt == none && u.status == "ACTIVE" with
      | false =>
        rw [hany] at h
        simp at h
      | true =>
        rw [hany] at h
        rw [if_neg (by decide)] at h
        simp only [Prod.mk.injEq, Except.ok.injEq] at h
        rw [← h.2]

/-- Shape of a successful `PostModel.deleteOwned`: both ids were valid and the
final cache is the initial one minus the post key and both glob families. -/
theorem deleteOwned_ok_shape (s : AppState) (now : Nat) (postId uid : String)
    (r : Bool) (s' : AppState)
    (h : deleteOwned s now postId uid = (.ok r, s')) :
    isValidId postId = true ∧ isValidId uid = true
    ∧ s'.cache = cacheDeletePattern
        (cacheDeletePattern (cacheDelete s.cache (keyPost postId))
          ("posts:user:" ++ uid ++ ":*"))
        "posts:feed:*" := by
  cases hvboth : isValidId postId && isValidId uid with
  | false =>
    unfold deleteOwned at h
    rw [hvboth] at h
    simp at h
  | true =>
    have hv12 : isValidId postId = true ∧ isValidId uid = true := by
      rw [← Bool.and_eq_true]
      exact hvboth
    refine ⟨hv12.1, hv12.2, ?_⟩
    unfold deleteOwned at h
    rw [hvboth] at h
    rw [if_neg (by decide)] at h
    dsimp only at h
    unfold DBtransaction at h
    dsimp only at h
    cases hfind : findPostById s.db postId with
    | none =>
      rw [hfind] at h
      simp at h
    | some p =>
      rw [hfind] at h
      dsimp only at h
      cases hdel : p.deletedAt == none with
      | false =>
        rw [show (p.deletedAt != none) = true by
          simpa [bne] using hdel] at h
        simp at h
      | true =>
        rw [show (p.deletedAt != none) = false by
          simpa [bne] using hdel] at h
        rw [if_neg (by decide)] at h
        cases hown : p.userId == uid with
        | false =>
          rw [show (p.userId != uid) = true by
            simpa [bne] using hown] at h
          simp at h
        | true =>
          rw [show (p.userId != uid) = false by
            simpa [bne] using hown] at h
          rw [if_neg (by decide)] at h
          dsimp only at h
          simp only [Prod.mk.injEq, Except.ok.injEq] at h
          rw [← h.2]

/-- Shape of a successful `UserModel.register`: the final cache is the initial
one with `users:all` deleted. -/
theorem register_ok_shape (hash : String → String) (s : AppState) (now : Nat)
    (newId email password displayName : String)
    (r : SafeUser × Token) (s' : AppState)
    (h : register hash s now newId email password displayName = (.ok r, s')) :
    s'.cache = cacheDelete s.cache keyAllUsers := by
  unfold register at h
  cases hvr : validateRegistration email password displayName with
  | error e =>
    rw [hvr] at h
    simp at h
  | ok u =>
    rw [hvr] at h
    dsimp only at h
    cases hfind : findUserByEmail s.db (normalizeEmail email) with
    | some w =>
      rw [hfind] at h
      simp at h
    | none =>
      rw [hfind] at h
      dsimp only at h
      simp only [Prod.mk.injEq, Except.ok.injEq] at h
      rw [← h.2]

/-- C4: after a successful post creation by author `uid`, every cache key
matching `posts:feed:*` and every key matching `posts:user:<uid>:*` is absent
(in particular, every such key that was present before); after a successful
post deletion, additionally the specific `post:<id>` key is absent; a
successful registration leaves the cache with `users:all` absent. -/
theorem cacheInvalidation_on_write (s : AppState) (now : Nat) :
    (∀ newId uid content post s',
      postCreate s now newId uid content = (.ok post, s') →
      (∀ key : String, "posts:feed:".toList <+: key.toList →
        cacheLookup s'.cache key = none)
      ∧ (∀ key : String, ("posts:user:" ++ uid ++ ":").toList <+: key.toList →
        cacheLookup s'.cache key = none))
    ∧ (∀ postId uid r s',
      deleteOwned s now postId uid = (.ok r, s') →
      cacheLookup s'.cache (keyPost postId) = none
      ∧ (∀ key : String, "posts:feed:".toList <+: key.toList →
        cacheLookup s'.cache key = none)
      ∧ (∀ key : String, ("posts:user:" ++ uid ++ ":").toList <+: key.toList →
        cacheLookup s'.cache key = none))
    ∧ (∀ hash newId email password displayName r s',
      register hash s now newId email password displayName = (.ok r, s') →
      cacheLookup s'.cache keyAllUsers = none) := by
  refine ⟨?_, ?_, ?_⟩
  · intro newId uid content post s' h
    obtain ⟨hvid, hcache⟩ := postCreate_ok_shape s now newId uid content post s' h
    constructor
    · intro key hpre
      rw [hcache]
      exact cacheLookup_deletePattern_of_test _ _ _ (regexTest_feedPattern key hpre)
    · intro key hpre
      rw [hcache]
      exact cacheLookup_deletePattern_of_none _ _ _
        (cacheLookup_deletePattern_of_test _ _ _
          (regexTest_userPattern uid key hvid hpre))
  · intro postId uid r s' h
    obtain ⟨hvp, hvu, hcache⟩ := deleteOwned_ok_shape s now postId uid r s' h
    refine ⟨?_, ?_, ?_⟩
    · rw [hcache]
      exact cacheLookup_deletePattern_of_none _ _ _
        (cacheLookup_deletePattern_of_none _ _ _
          (cacheLookup_cacheDelete_self s.cache (keyPost postId)))
    · intro key hpre
      rw [hcache]
      exact cacheLookup_deletePattern_of_test _ _ _ (regexTest_feedPattern key hpre)
    · intro key hpre
      rw [hcache]
      exact cacheLookup_deletePattern_of_none _ _ _
        (cacheLookup_deletePattern_of_test _ _ _
          (regexTest_userPattern uid key hvu hpre))
  · intro hash newId email password displayName r s' h
    rw [register_ok_shape hash s now newId email password displayName r s' h]
    exact cacheLookup_cacheDelete_self s.cache keyAllUsers

/-- Witness for the C4 theorem: concrete create / delete / register runs leave
the invalidated keys absent. -/
theorem cacheInvalidation_on_write_witness :
    cacheLookup sAfterCreate.cache (keyFeed 0) = none
    ∧ cacheLookup sAfterCreate.cache (keyUserPosts uuidA 0) = none
    ∧ cacheLookup sAfterDelete.cache (keyPost uuidC) = none
    ∧ cacheLookup sAfterDelete.cache (keyFeed 0) = none
    ∧ cacheLookup sAfterDelete.cache (keyUserPosts uuidA 0) = none
    ∧ cacheLookup sAfterReg.cache keyAllUsers = none := by
  have h0 := cacheInvalidation_on_write s0 60
  have h1 := cacheInvalidation_on_write s1 70
  have h2 := cacheInvalidation_on_write s0 80
  have hcr : postCreate s0 60 uuidB uuidA "hello" = (.ok postHello, sAfterCreate) := by
    decide
  have hdel : deleteOwned s1 70 uuidC uuidA = (.ok true, sAfterDelete) := by
    decide
  have hreg : register testHash s0 80 uuidB "new@x.com" "password123" "Newbie"
      = (.ok (safeNew, ⟨uuidB, "new@x.com"⟩), sAfterReg) := by
    decide
  refine ⟨?_, ?_, ?_, ?_, ?_, ?_⟩
  · exact (h0.1 uuidB uuidA "hello" postHello sAfterCreate hcr).1
      (keyFeed 0) (keyFeed_startsWith 0)
  · exact (h0.1 uuidB uuidA "hello" postHello sAfterCreate hcr).2
      (keyUserPosts uuidA 0) (keyUserPosts_startsWith uuidA 0)
  · exact (h1.2.1 uuidC uuidA true sAfterDelete hdel).1
  · exact (h1.2.1 uuidC uuidA true sAfterDelete hdel).2.1
      (keyFeed 0) (keyFeed_startsWith 0)
  · exact (h1.2.1 uuidC uuidA true sAfterDelete hdel).2.2
      (keyUserPosts uuidA 0) (keyUserPosts_startsWith uuidA 0)
  · exact h2.2.2 testHash uuidB "new@x.com" "password123" "Newbie"
      (safeNew, ⟨uuidB, "new@x.com"⟩) sAfterReg hreg

/-! ## C5 — deleting a post: authorization, errors, and soft-delete reads -/

theorem dbSnapshot_restore (db : DBState) :
    (⟨db.users.map jsonRoundTripUser, db.posts.map jsonRoundTripPost⟩ : DBState)
      = db := by
  have hu : db.users.map jsonRoundTripUser = db.users := by
    rw [show jsonRoundTripUser = id from funext fun u => jsonRoundTripUser_id u]
    exact List.map_id db.users
  have hp : db.posts.map jsonRoundTripPost = db.posts := by
    rw [show jsonRoundTripPost = id from funext fun p => jsonRoundTripPost_id p]
    exact List.map_id db.posts
  rw [hu, hp]

/-- Branch behaviour of `deleteOwned` under valid ids: missing post ⇒
`NotFound` with the state untouched; already soft-deleted ⇒ `NotFound`;
foreign owner ⇒ `Forbidden`; owned live post ⇒ success with the post
soft-deleted and the three key families invalidated. -/
theorem deleteOwned_branches (s : AppState) (now : Nat) (postId userId : String)
    (hvp : isValidId postId = true) (hvu : isValidId userId = true) :
    (findPostById s.db postId = none →
      deleteOwned s now postId userId = (.error (.notFound "Post"), s))
    ∧ (∀ q, findPostById s.db postId = some q → q.deletedAt ≠ none →
      deleteOwned s now postId userId = (.error (.notFound "Post"), s))
    ∧ (∀ q, findPostById s.db postId = some q → q.deletedAt = none →
      q.userId ≠ userId →
      deleteOwned s now postId userId
        = (.error (.forbidden "You can only delete your own posts"), s))
    ∧ (∀ q, findPostById s.db postId = some q → q.deletedAt = none →
      q.userId = userId →
      deleteOwned s now postId userId
        = (.ok true, ⟨softDeletePost s.db postId now,
            cacheDeletePattern
              (cacheDeletePattern (cacheDelete s.cache (keyPost postId))
                ("posts:user:" ++ userId ++ ":*"))
              "posts:feed:*"⟩)) := by
  have hv : (isValidId postId && isValidId userId) = true := by
    rw [hvp, hvu]
    rfl
  refine ⟨?_, ?_, ?_, ?_⟩
  · intro hfind
    unfold deleteOwned
    rw [hv, if_neg (by decide)]
    dsimp only
    unfold DBtransaction
    dsimp only
    rw [hfind]
    dsimp only
    rw [dbSnapshot_restore]
  · intro q hfind hdel
    unfold deleteOwned
    rw [hv, if_neg (by decide)]
    dsimp only
    unfold DBtransaction
    dsimp only
    rw [hfind]
    dsimp only
    rw [show (q.deletedAt != none) = true by
      simp [bne, beq_eq_false_iff_ne, hdel]]
    rw [if_pos rfl]
    rw [dbSnapshot_restore]
  · intro q hfind hdel hown
    unfold deleteOwned
    rw [hv, if_neg (by decide)]
    dsimp only
    unfold DBtransaction
    dsimp only
    rw [hfind]
    dsimp only
    rw [show (q.deletedAt != none) = false by simp [bne, hdel]]
    rw [if_neg (by decide)]
    rw [show (q.userId != userId) = true by
      simp [bne, beq_eq_false_iff_ne, hown]]
    rw [if_pos rfl]
    rw [dbSnapshot_restore]
  · intro q hfind hdel hown
    unfold deleteOwned
    rw [hv, if_neg (by decide)]
    dsimp only
    unfold DBtransaction
    dsimp only
    rw [hfind]
    dsimp only
    rw [show (q.deletedAt != none) = false by simp [bne, hdel]]
    rw [if_neg (by decide)]
    rw [show (q.userId != userId) = false by simp [bne, hown]]
    rw [if_neg (by decide)]

/-- C5: deleting a post the user does not own fails with `Forbidden`; deleting
a non-existent or already-soft-deleted post fails with `NotFound` (in both
error cases the state is unchanged); deleting the user's own live post
succeeds as a soft delete, after which the post is absent from subsequent
feed reads, user-posts reads, and get-post-by-id (which answers `NotFound`). -/
theorem deleteOwned_spec (s : AppState) (now : Nat) (postId userId : String)
    (hvp : isValidId postId = true) (hvu : isValidId userId = true) :
    (∀ q, findPostById s.db postId = some q → q.deletedAt = none →
      q.userId ≠ userId →
      deleteOwned s now postId userId
        = (.error (.forbidden "You can only delete your own posts"), s))
    ∧ (findPostById s.db postId = none →
      deleteOwned s now postId userId = (.error (.notFound "Post"), s))
    ∧ (∀ q, findPostById s.db postId = some q → q.deletedAt ≠ none →
      deleteOwned s now postId userId = (.error (.notFound "Post"), s))
    ∧ (∀ q, findPostById s.db postId = some q → q.deletedAt = none →
      q.userId = userId → ((s.db.posts.map fun p => p.id).Nodup) →
      ∀ (cfg : Config) (now' : Nat),
      (deleteOwned s now postId userId).1 = .ok true
      ∧ (∀ lim off ord res s'',
          getAllWithAuthors cfg (deleteOwned s now postId userId).2 now'
            lim off ord = (.ok res, s'') →
          ∀ x ∈ res, x.post.id ≠ postId)
      ∧ (∀ lim off ord res s'',
          postGetByUserId cfg (deleteOwned s now postId userId).2 now' userId
            lim off ord = (.ok res, s'') →
          ∀ p ∈ res, Post.id p ≠ postId)
      ∧ (postGetById cfg (deleteOwned s now postId userId).2 now' postId).1
          = .error (.notFound "Post")) := by
  obtain ⟨hnone, hdel2, hforb, hok⟩ :=
    deleteOwned_branches s now postId userId hvp hvu
  refine ⟨hforb, hnone, hdel2, ?_⟩
  intro q hfind hlive hown hnodup cfg now'
  have hrun := hok q hfind hlive hown
  have hlive' : ∀ q' ∈ (softDeletePost s.db postId now).posts,
      q'.deletedAt = none → q'.id ≠ postId := by
    intro q' hq' hl'
    exact live_updateFirstPost postId now s.db.posts hnodup q' hq' hl'
  refine ⟨by rw [hrun], ?_, ?_, ?_⟩
  · intro lim off ord res s'' hres
    rw [hrun] at hres
    dsimp only at hres
    unfold getAllWithAuthors at hres
    cases hvpag : validatePagination lim off ord with
    | error e =>
      rw [hvpag] at hres
      simp at hres
    | ok t =>
      obtain ⟨l, o, od⟩ := t
      rw [hvpag] at hres
      dsimp only at hres
      rw [cacheGet_of_lookup_none _ _ _
        (cacheLookup_deletePattern_of_test _ _ _
          (regexTest_feedPattern _ (keyFeed_startsWith _)))] at hres
      dsimp only at hres
      simp only [Prod.mk.injEq, Except.ok.injEq] at hres
      intro x hx
      rw [← hres.1] at hx
      have hmem := mem_enrichPosts cfg (softDeletePost s.db postId now) now' _ _ x hx
      obtain ⟨hmem', hlv, -⟩ := mem_findPosts_props _ _ _ _ _ _ hmem
      exact hlive' x.post hmem' hlv
  · intro lim off ord res s'' hres
    rw [hrun] at hres
    dsimp only at hres
    unfold postGetByUserId at hres
    rw [hvu] at hres
    rw [if_neg (by decide)] at hres
    cases hvpag : validatePagination lim off ord with
    | error e =>
      rw [hvpag] at hres
      simp at hres
    | ok t =>
      obtain ⟨l, o, od⟩ := t
      rw [hvpag] at hres
      dsimp only at hres
      rw [cacheGet_of_lookup_none _ _ _
        (cacheLookup_deletePattern_of_none _ _ _
          (cacheLookup_deletePattern_of_test _ _ _
            (regexTest_userPattern userId _ hvu (keyUserPosts_startsWith _ _))))] at hres
      dsimp only at hres
      simp only [Prod.mk.injEq, Except.ok.injEq] at hres
      intro p hp
      rw [← hres.1] at hp
      obtain ⟨hmem', hlv, -⟩ := mem_findPosts_props _ _ _ _ _ _ hp
      exact hlive' p hmem' hlv
  · rw [hrun]
    dsimp only
    unfold postGetById
    rw [hvp]
    rw [if_neg (by decide)]
    dsimp only
    rw [cacheGet_of_lookup_none _ _ _
      (cacheLookup_deletePattern_of_none _ _ _
        (cacheLookup_deletePattern_of_none _ _ _
          (cacheLookup_cacheDelete_self _ _)))]
    dsimp only
    have hfind' : findPostById (softDeletePost s.db postId now) postId
        = some { q with deletedAt := some now } := by
      unfold findPostById at hfind ⊢
      unfold softDeletePost
      dsimp only
      exact find?_updateFirstPost postId
        (fun p => { p with deletedAt := some now }) (fun p => rfl)
        s.db.posts q hfind
    rw [hfind']
    dsimp only
    rw [show (({ q with deletedAt := some now } : Post).deletedAt != none)
        = true by simp [bne]]
    rfl

/-- Witness for the C5 theorem: a concrete owned deletion succeeds and the
post vanishes from all three reads, a missing id yields `NotFound`, and a
foreign caller yields `Forbidden` with the state unchanged. -/
theorem deleteOwned_spec_witness :
    (deleteOwned s1 70 uuidC uuidA).1 = .ok true
    ∧ (∀ x ∈ ([] : List PostWithAuthor), x.post.id ≠ uuidC)
    ∧ (∀ p ∈ ([] : List Post), Post.id p ≠ uuidC)
    ∧ (postGetById defaultConfig (deleteOwned s1 70 uuidC uuidA).2 71 uuidC).1
        = .error (.notFound "Post")
    ∧ deleteOwned s1 70 uuidB uuidA = (.error (.notFound "Post"), s1)
    ∧ deleteOwned s1 70 uuidC uuidB
        = (.error (.forbidden "You can only delete your own posts"), s1) := by
  have h := deleteOwned_spec s1 70 uuidC uuidA (by decide) (by decide)
  have h4 := h.2.2.2 postC (by decide) (by decide) (by decide) (by decide)
    defaultConfig 71
  have hB := deleteOwned_spec s1 70 uuidB uuidA (by decide) (by decide)
  have hC := deleteOwned_spec s1 70 uuidC uuidB (by decide) (by decide)
  refine ⟨h4.1, ?_, ?_, h4.2.2.2, hB.2.1 (by decide),
    hC.1 postC (by decide) (by decide) (by decide)⟩
  · exact h4.2.1 none none none [] sFeedAfter (by decide)
  · exact h4.2.2.1 none none none [] sUserAfter (by decide)

/-! ## C1 — the account-lockout state machine -/

/-- One failed attempt against the isolated record with `failedLoginCount = j`
and no lock: `InvalidCredentials` is thrown, the count becomes `j + 1`, and
the lock is set exactly when `j + 1` reaches the threshold. -/
theorem auth_fail_step (cfg : Config) (verify : String → String → Bool)
    (us vs : List UserRecord) (ps : List Post) (u : UserRecord)
    (email pw : String) (j t : Nat)
    (hvemail : isValidEmail email = true)
    (hvpw : isNonEmptyString pw = true)
    (hne : u.email = normalizeEmail email)
    (hdel : u.deletedAt = none)
    (hstat : u.status = "ACTIVE")
    (hwrong : verify pw u.passwordHash = false)
    (hus : ∀ v ∈ us, (v.email = u.email → v.deletedAt ≠ none) ∧ v.id ≠ u.id) :
    authenticate cfg verify
      ⟨us ++ { u with failedLoginCount := j, lockedUntil := none } :: vs, ps⟩
      t email pw
      = (.error (.invalidCredentials "Invalid email or password"),
        ⟨us ++ { u with
                 failedLoginCount := j + 1,
                 lockedUntil :=
                   if j + 1 ≥ cfg.maxFailedLoginAttempts then
                     some (t + cfg.accountLockoutDurationMs)
                   else none } :: vs, ps⟩) := by
  have hval : validateLogin email pw = .ok () := by
    unfold validateLogin
    rw [hvemail, hvpw]
    rfl
  have hfind : findUserByEmail
      ⟨us ++ { u with failedLoginCount := j, lockedUntil := none } :: vs, ps⟩
      (normalizeEmail email)
      = some { u with failedLoginCount := j, lockedUntil := none } := by
    unfold findUserByEmail
    apply find?_append_skip
    · intro v hv
      by_cases hvem : v.email = normalizeEmail email
      · have hvdel := (hus v hv).1 (by rw [hvem, hne])
        rw [show (v.deletedAt == none) = false from
          beq_eq_false_iff_ne.2 hvdel]
        simp
      · rw [show (v.email == normalizeEmail email) = false from
          beq_eq_false_iff_ne.2 hvem]
        simp
    · show (u.email == normalizeEmail email && (u.deletedAt == none)) = true
      rw [show (u.email == normalizeEmail email) = true from
        beq_iff_eq.2 hne]
      rw [show (u.deletedAt == none) = true from beq_iff_eq.2 hdel]
      rfl
  have hfindId : findUserById
      ⟨us ++ { u with failedLoginCount := j, lockedUntil := none } :: vs, ps⟩
      u.id false
      = some { u with failedLoginCount := j, lockedUntil := none } := by
    unfold findUserById
    apply find?_append_skip
    · intro v hv
      rw [show (v.id == u.id) = false from beq_eq_false_iff_ne.2 (hus v hv).2]
      rfl
    · show (u.id == u.id && _) = true
      rw [show (u.id == u.id) = true from beq_iff_eq.2 rfl]
      rfl
  have hupd : ∀ p : UserPatch,
      updateUser
        ⟨us ++ { u with failedLoginCount := j, lockedUntil := none } :: vs, ps⟩
        u.id p
      = ⟨us ++ applyUserPatch { u with failedLoginCount := j, lockedUntil := none } p :: vs, ps⟩ := by
    intro p
    unfold updateUser
    rw [updateFirstUser_append u.id _ us
      { u with failedLoginCount := j, lockedUntil := none } vs
      (fun v hv => beq_eq_false_iff_ne.2 (hus v hv).2)
      (beq_iff_eq.2 rfl)]
  unfold authenticate
  rw [hval]
  dsimp only
  rw [hfind]
  dsimp only
  rw [show lockedNow ({ u with failedLoginCount := j, lockedUntil := none } : UserRecord).lockedUntil t = false from rfl]
  rw [if_neg (by decide)]
  rw [show (({ u with failedLoginCount := j, lockedUntil := none } : UserRecord).status != "ACTIVE"
      || !verify pw ({ u with failedLoginCount := j, lockedUntil := none } : UserRecord).passwordHash) = true by
    show (u.status != "ACTIVE" || !verify pw u.passwordHash) = true
    rw [hstat, hwrong]
    rfl]
  rw [if_pos rfl]
  unfold recordFailedLogin
  rw [hfindId]
  dsimp only
  by_cases hge : j + 1 ≥ cfg.maxFailedLoginAttempts
  · rw [if_pos hge, if_pos hge, hupd]
    rfl
  · rw [if_neg hge, if_neg hge, hupd]
    rfl

/-- The full run of `threshold` consecutive failed attempts, by induction on
the times of the first `threshold - 1` attempts. -/
theorem failN_run (cfg : Config) (verify : String → String → Bool)
    (us vs : List UserRecord) (ps : List Post) (u : UserRecord)
    (email pw : String)
    (hvemail : isValidEmail email = true)
    (hvpw : isNonEmptyString pw = true)
    (hne : u.email = normalizeEmail email)
    (hdel : u.deletedAt = none)
    (hstat : u.status = "ACTIVE")
    (hwrong : verify pw u.passwordHash = false)
    (hus : ∀ v ∈ us, (v.email = u.email → v.deletedAt ≠ none) ∧ v.id ≠ u.id) :
    ∀ (ts : List Nat) (j tN : Nat),
    j + ts.length + 1 = cfg.maxFailedLoginAttempts →
    failN cfg verify
      ⟨us ++ { u with failedLoginCount := j, lockedUntil := none } :: vs, ps⟩
      (ts ++ [tN]) email pw
      = ⟨us ++ { u with failedLoginCount := cfg.maxFailedLoginAttempts, lockedUntil := some (tN + cfg.accountLockoutDurationMs) } :: vs, ps⟩ := by
  intro ts
  induction ts with
  | nil =>
    intro j tN hj
    unfold failN
    simp only [List.nil_append, List.foldl_cons, List.foldl_nil]
    rw [auth_fail_step cfg verify us vs ps u email pw j tN hvemail hvpw hne
      hdel hstat hwrong hus]
    dsimp only
    have hjN : j + 1 = cfg.maxFailedLoginAttempts := by
      simpa using hj
    rw [if_pos (by omega), hjN]
  | cons t ts' ih =>
    intro j tN hj
    have hj' : (j + 1) + ts'.length + 1 = cfg.maxFailedLoginAttempts := by
      simp only [List.length_cons] at hj
      omega
    unfold failN
    simp only [List.cons_append, List.foldl_cons]
    rw [auth_fail_step cfg verify us vs ps u email pw j t hvemail hvpw hne
      hdel hstat hwrong hus]
    dsimp only
    rw [if_neg (by omega)]
    have ih' := ih (j + 1) tN hj'
    unfold failN at ih'
    exact ih'

/-- C1: starting from an isolated active record with zero failed logins and no
lock, after `threshold` consecutive failed attempts (the last one at time
`tN`) the record transitions to locked — `failedLoginCount = threshold` and
`lockedUntil = tN + lockoutDuration` — and while `lockedUntil` is in the
future any further attempt, even with the correct password, fails with
`AccountLocked`; once the lock window has elapsed, an attempt with the
correct password succeeds. -/
theorem authenticate_lockout_spec (cfg : Config)
    (verify : String → String → Bool)
    (us vs : List UserRecord) (ps : List Post) (u : UserRecord)
    (email pw pwGood : String) (ts : List Nat) (tN : Nat)
    (hN : ts.length + 1 = cfg.maxFailedLoginAttempts)
    (hvemail : isValidEmail email = true)
    (hvpw : isNonEmptyString pw = true)
    (hvpwG : isNonEmptyString pwGood = true)
    (hne : u.email = normalizeEmail email)
    (hdel : u.deletedAt = none)
    (hstat : u.status = "ACTIVE")
    (hcount : u.failedLoginCount = 0)
    (hlock : u.lockedUntil = none)
    (hwrong : verify pw u.passwordHash = false)
    (hright : verify pwGood u.passwordHash = true)
    (hus : ∀ v ∈ us, (v.email = u.email → v.deletedAt ≠ none) ∧ v.id ≠ u.id) :
    failN cfg verify ⟨us ++ u :: vs, ps⟩ (ts ++ [tN]) email pw
      = ⟨us ++ { u with failedLoginCount := cfg.maxFailedLoginAttempts, lockedUntil := some (tN + cfg.accountLockoutDurationMs) } :: vs, ps⟩
    ∧ (∀ t', t' < tN + cfg.accountLockoutDurationMs →
        (authenticate cfg verify
          (failN cfg verify ⟨us ++ u :: vs, ps⟩ (ts ++ [tN]) email pw)
          t' email pwGood).1
          = .error (.accountLocked
            "Account temporarily locked due to multiple failed login attempts"))
    ∧ (∀ t'', tN + cfg.accountLockoutDurationMs ≤ t'' →
        (authenticate cfg verify
          (failN cfg verify ⟨us ++ u :: vs, ps⟩ (ts ++ [tN]) email pw)
          t'' email pwGood).1
          = .ok (toSafeUser u, ⟨u.id, u.email⟩)) := by
  have hu0 : ({ u with failedLoginCount := 0, lockedUntil := none } : UserRecord) = u := by
    rw [← hcount, ← hlock]
  have hrunN : failN cfg verify ⟨us ++ u :: vs, ps⟩ (ts ++ [tN]) email pw
      = ⟨us ++ { u with failedLoginCount := cfg.maxFailedLoginAttempts, lockedUntil := some (tN + cfg.accountLockoutDurationMs) } :: vs, ps⟩ := by
    rw [show (⟨us ++ u :: vs, ps⟩ : DBState)
        = ⟨us ++ { u with failedLoginCount := 0, lockedUntil := none } :: vs, ps⟩ by
      rw [hu0]]
    exact failN_run cfg verify us vs ps u email pw hvemail hvpw hne hdel hstat
      hwrong hus ts 0 tN (by omega)
  have hvalG : validateLogin email pwGood = .ok () := by
    unfold validateLogin
    rw [hvemail, hvpwG]
    rfl
  have hfindN : findUserByEmail
      ⟨us ++ { u with failedLoginCount := cfg.maxFailedLoginAttempts, lockedUntil := some (tN + cfg.accountLockoutDurationMs) } :: vs, ps⟩
      (normalizeEmail email)
      = some { u with failedLoginCount := cfg.maxFailedLoginAttempts, lockedUntil := some (tN + cfg.accountLockoutDurationMs) } := by
    unfold findUserByEmail
    apply find?_append_skip
    · intro v hv
      by_cases hvem : v.email = normalizeEmail email
      · have hvdel := (hus v hv).1 (by rw [hvem, hne])
        rw [show (v.deletedAt == none) = false from
          beq_eq_false_iff_ne.2 hvdel]
        simp
      · rw [show (v.email == normalizeEmail email) = false from
          beq_eq_false_iff_ne.2 hvem]
        simp
    · show (u.email == normalizeEmail email && (u.deletedAt == none)) = true
      rw [show (u.email == normalizeEmail email) = true from beq_iff_eq.2 hne]
      rw [show (u.deletedAt == none) = true from beq_iff_eq.2 hdel]
      rfl
  refine ⟨hrunN, ?_, ?_⟩
  · intro t' ht'
    rw [hrunN]
    unfold authenticate
    rw [hvalG]
    dsimp only
    rw [hfindN]
    dsimp only
    rw [show lockedNow (some (tN + cfg.accountLockoutDurationMs)) t' = true by
      unfold lockedNow
      simpa using ht']
    rfl
  · intro t'' ht''
    rw [hrunN]
    unfold authenticate
    rw [hvalG]
    dsimp only
    rw [hfindN]
    dsimp only
    rw [show lockedNow (some (tN + cfg.accountLockoutDurationMs)) t'' = false by
      unfold lockedNow
      simpa using ht'']
    rw [if_neg (by decide)]
    rw [show (({ u with failedLoginCount := cfg.maxFailedLoginAttempts, lockedUntil := some (tN + cfg.accountLockoutDurationMs) } : UserRecord).status != "ACTIVE"
        || !verify pwGood ({ u with failedLoginCount := cfg.maxFailedLoginAttempts, lockedUntil := some (tN + cfg.accountLockoutDurationMs) } : UserRecord).passwordHash) = false by
      show (u.status != "ACTIVE" || !verify pwGood u.passwordHash) = false
      rw [hstat, hright]
      rfl]
    rw [if_neg (by decide)]
    rfl

/-- Witness for the C1 theorem: with the default config (threshold 5, lockout
15 min), five wrong-password attempts at times 1..5 lock `userA` until
900005 ms; the correct password still fails at time 100 and succeeds at time
900005. -/
theorem authenticate_lockout_spec_witness :
    failN defaultConfig testVerify dbA [1, 2, 3, 4, 5] "a@x.com" "wrong"
      = ⟨[{ userA with failedLoginCount := 5, lockedUntil := some 900005 }], []⟩
    ∧ (authenticate defaultConfig testVerify
        (failN defaultConfig testVerify dbA [1, 2, 3, 4, 5] "a@x.com" "wrong")
        100 "a@x.com" "password1").1
      = .error (.accountLocked
          "Account temporarily locked due to multiple failed login attempts")
    ∧ (authenticate defaultConfig testVerify
        (failN defaultConfig testVerify dbA [1, 2, 3, 4, 5] "a@x.com" "wrong")
        900005 "a@x.com" "password1").1
      = .ok (toSafeUser userA, ⟨uuidA, "a@x.com"⟩) := by
  have h := authenticate_lockout_spec defaultConfig testVerify [] [] [] userA
    "a@x.com" "wrong" "password1" [1, 2, 3, 4] 5
    (by decide) (by decide) (by decide) (by decide) (by decide) (by decide)
    (by decide) (by decide) (by decide) (by decide) (by decide)
    (by intro v hv; cases hv)
  exact ⟨h.1, h.2.1 100 (by decide), h.2.2 900005 (by decide)⟩

end MicroPost
